import Mathlib

/-!
Shallow embedding of the SickChill torrent-provider search adapters
(ABNormal, IPTorrents, Ncore, Norbits) and proofs about the properties
of their `login` / `search` operations.

Conventions of the embedding:
* Python dictionaries iterated in order are association lists
  `List (String × List String)` (the `search_strings` mapping) or
  `List (String × String)` (a cookie jar).
* A transport response that Python would treat as falsy (`None` or the
  empty result) is `Option.none`; the library helpers that live outside
  the translated files (`convert_size`, `urljoin`, `validators.url`,
  `add_cookies_from_ui`) are supplied as components of an environment
  record, so every theorem quantifies over their behaviour.
* A Python exception that escapes a provider method is `Except.error`
  carrying the exception class; exceptions that the source catches are
  resolved locally and never surface in the result type.
* Machine-level fetch counting: each embedded method returns, next to its
  result, the number of `get_url` invocations it performed.
-/

namespace SickChill

/-- Normalized result record: the dictionaries
`{'title': ..., 'link': ..., 'size': ..., 'seeders': ..., 'leechers': ..., 'hash': ...}`
appended to `items` by every provider. -/
structure Item where
  title : String
  link : String
  size : Int
  seeders : Int
  leechers : Int
  hash : String
deriving DecidableEq, Repr

/-- Python `x or d` for an optional integer `x`: `None` and `0` are falsy
and give the default. This is the `convert_size(...) or -1` pattern. -/
def pyOr (o : Option Int) (d : Int) : Int :=
  match o with
  | none => d
  | some v => if v = 0 then d else v

/-- Value of a list of decimal digits, used by `pyInt`. -/
def digitsVal : List Char → Option Nat
  | [] => none
  | l => if l.all Char.isDigit then
      some (l.foldl (fun a c => a * 10 + (c.toNat - 48)) 0)
    else none

/-- ASCII whitespace, as stripped by Python `int(...)`. -/
def isPySpace (c : Char) : Bool :=
  c = ' ' ∨ c = '\t' ∨ c = '\n' ∨ c = '\r'

/-- Python `int(s)` on a string: strips surrounding whitespace, allows one
sign, requires at least one digit; `none` models the raised `ValueError`. -/
def pyInt (s : String) : Option Int :=
  match ((s.toList.dropWhile isPySpace).reverse.dropWhile isPySpace).reverse with
  | '-' :: rest => (digitsVal rest).map (fun n => -(n : Int))
  | '+' :: rest => (digitsVal rest).map (fun n => (n : Int))
  | l => (digitsVal l).map (fun n => (n : Int))

/-- `sickchill.helper.common.try_int`: `int(candidate)` with any failure
replaced by the default `0`. -/
def tryInt (s : String) : Int := (pyInt s).getD 0

/-- Matcher for the prefix of a literal `re` pattern in which the only
metacharacter is `.` (every pattern the providers search for is of this
shape). -/
def reMatchPrefix : List Char → List Char → Bool
  | [], _ => true
  | _ :: _, [] => false
  | p :: ps, c :: cs => (p == '.' || p == c) && reMatchPrefix ps cs

/-- `re.search(pat, s) is not None` for the literal-plus-dot patterns used
by the providers. -/
def reSearch (pat s : String) : Bool :=
  (s.toList.tails).any (fun t => reMatchPrefix pat.toList t)

/-- `any(dict_from_cookiejar(session.cookies).values())`: some cookie has a
truthy (non-empty) value. -/
def anyCookieTruthy (session : List (String × String)) : Bool :=
  session.any (fun kv => kv.2 ≠ "")

/-- An optional value consumed by a list-producing continuation: the falsy
or missing case contributes no items (`continue` in the loops). -/
def olist {α β : Type} (o : Option α) (k : α → List β) : List β :=
  match o with
  | none => []
  | some a => k a

theorem mem_olist {α β : Type} {o : Option α} {k : α → List β} {x : β} :
    x ∈ olist o k ↔ ∃ a, o = some a ∧ x ∈ k a := by
  cases o <;> simp [olist]

/-- Exception classes that can escape the translated methods. -/
inductive PyErr where
  | typeError
  | keyError
  | attributeError
  | authException
deriving DecidableEq, Repr

instance {α β : Type} [DecidableEq α] [DecidableEq β] :
    DecidableEq (Except α β) := fun a b =>
  match a, b with
  | .error e1, .error e2 =>
    if h : e1 = e2 then isTrue (by rw [h]) else isFalse (by simp [h])
  | .ok v1, .ok v2 =>
    if h : v1 = v2 then isTrue (by rw [h]) else isFalse (by simp [h])
  | .error _, .ok _ => isFalse (by simp)
  | .ok _, .error _ => isFalse (by simp)

/-- An optional value whose absence raises the exception `e` that nothing
in the surrounding code catches. -/
def elist {α β : Type} (o : Option α) (e : PyErr) (k : α → Except PyErr β) :
    Except PyErr β :=
  match o with
  | none => .error e
  | some a => k a

theorem elist_eq_ok {α β : Type} {o : Option α} {e : PyErr}
    {k : α → Except PyErr β} {l : β} :
    elist o e k = .ok l ↔ ∃ a, o = some a ∧ k a = .ok l := by
  cases o <;> simp [elist]

/-! ### The per-mode sort

Every provider ends a mode with
`items.sort(key=lambda d: try_int(d.get('seeders', 0)), reverse=True)`.
All items carry an integer `seeders` field, so the key is `Item.seeders`.
CPython's `list.sort` is a stable sort, and with `reverse=True` it orders
by key descending while equal keys keep their original relative order; a
stable insertion sort has exactly this behaviour. -/

/-- Insert `x` (an earlier-discovered item) in front of the first element
whose seeder count does not exceed its own. -/
def insertBySeeders (x : Item) : List Item → List Item
  | [] => [x]
  | y :: ys => if y.seeders ≤ x.seeders then x :: y :: ys else y :: insertBySeeders x ys

/-- `items.sort(key=lambda d: try_int(d.get('seeders', 0)), reverse=True)`:
stable sort by seeders, descending. -/
def pySortSeeders : List Item → List Item
  | [] => []
  | x :: xs => insertBySeeders x (pySortSeeders xs)

/-- Non-increasing seeder counts along the list. -/
def SortedBySeedersDesc (l : List Item) : Prop :=
  l.Pairwise (fun a b => b.seeders ≤ a.seeders)

theorem mem_insertBySeeders {z x : Item} {l : List Item} :
    z ∈ insertBySeeders x l ↔ z = x ∨ z ∈ l := by
  induction l with
  | nil => simp [insertBySeeders]
  | cons y ys ih =>
    by_cases h : y.seeders ≤ x.seeders
    · simp [insertBySeeders, h]
    · simp only [insertBySeeders, if_neg h, List.mem_cons, ih]
      tauto

theorem mem_pySortSeeders {z : Item} {l : List Item} :
    z ∈ pySortSeeders l ↔ z ∈ l := by
  induction l with
  | nil => simp [pySortSeeders]
  | cons x xs ih => simp [pySortSeeders, mem_insertBySeeders, ih]

theorem sorted_insertBySeeders {x : Item} {l : List Item}
    (h : SortedBySeedersDesc l) : SortedBySeedersDesc (insertBySeeders x l) := by
  induction l with
  | nil => simp [insertBySeeders, SortedBySeedersDesc]
  | cons y ys ih =>
    rcases h with _ | ⟨hy, hys⟩
    by_cases hle : y.seeders ≤ x.seeders
    · rw [SortedBySeedersDesc, insertBySeeders, if_pos hle]
      refine List.Pairwise.cons ?_ (List.Pairwise.cons hy hys)
      intro z hz
      rcases List.mem_cons.mp hz with rfl | hz
      · exact hle
      · exact le_trans (hy z hz) hle
    · rw [SortedBySeedersDesc] at ih ⊢
      rw [insertBySeeders, if_neg hle]
      refine List.Pairwise.cons ?_ (ih hys)
      intro z hz
      rcases mem_insertBySeeders.mp hz with rfl | hz
      · exact le_of_not_le hle
      · exact hy z hz

theorem sorted_pySortSeeders (l : List Item) :
    SortedBySeedersDesc (pySortSeeders l) := by
  induction l with
  | nil => exact List.Pairwise.nil
  | cons x xs ih => exact sorted_insertBySeeders ih

theorem filter_insertBySeeders_of_eq {x : Item} {k : Int} (l : List Item)
    (hx : x.seeders = k) :
    (insertBySeeders x l).filter (fun a => decide (a.seeders = k)) =
      x :: l.filter (fun a => decide (a.seeders = k)) := by
  induction l with
  | nil => simp [insertBySeeders, hx]
  | cons y ys ih =>
    by_cases hle : y.seeders ≤ x.seeders
    · rw [insertBySeeders, if_pos hle]
      simp [List.filter_cons, hx]
    · have hy : ¬ y.seeders = k := by
        intro hk
        exact hle (le_of_eq (hk.trans hx.symm))
      rw [insertBySeeders, if_neg hle]
      simp only [List.filter_cons, hy, decide_eq_true_eq, if_neg, ih]
      simp [hy]

theorem filter_insertBySeeders_of_ne {x : Item} {k : Int} (l : List Item)
    (hx : ¬ x.seeders = k) :
    (insertBySeeders x l).filter (fun a => decide (a.seeders = k)) =
      l.filter (fun a => decide (a.seeders = k)) := by
  induction l with
  | nil => simp [insertBySeeders, hx]
  | cons y ys ih =>
    by_cases hle : y.seeders ≤ x.seeders
    · simp [insertBySeeders, hle, hx]
    · rw [insertBySeeders, if_neg hle]
      by_cases hy : y.seeders = k
      · simp [List.filter_cons, hy, ih]
      · simp [List.filter_cons, hy, ih]

theorem filter_pySortSeeders (l : List Item) (k : Int) :
    (pySortSeeders l).filter (fun a => decide (a.seeders = k)) =
      l.filter (fun a => decide (a.seeders = k)) := by
  induction l with
  | nil => rfl
  | cons x xs ih =>
    by_cases hx : x.seeders = k
    · rw [pySortSeeders, filter_insertBySeeders_of_eq _ hx, ih]
      simp [List.filter_cons, hx]
    · rw [pySortSeeders, filter_insertBySeeders_of_ne _ hx, ih]
      simp [List.filter_cons, hx]

theorem perm_insertBySeeders (x : Item) (l : List Item) :
    (insertBySeeders x l).Perm (x :: l) := by
  induction l with
  | nil => exact List.Perm.refl [x]
  | cons y ys ih =>
    by_cases h : y.seeders ≤ x.seeders
    · rw [insertBySeeders, if_pos h]
    · rw [insertBySeeders, if_neg h]
      exact (ih.cons y).trans (List.Perm.swap x y ys)

theorem perm_pySortSeeders (l : List Item) : (pySortSeeders l).Perm l := by
  induction l with
  | nil => exact List.Perm.refl []
  | cons x xs ih =>
    exact (perm_insertBySeeders x (pySortSeeders xs)).trans (ih.cons x)

/-! ## ABNormal (`abnormal.py`)

HTML-table provider. The BeautifulSoup view of a fetched page is embedded
at the granularity the code accesses it: a page optionally holds the
`class_='torrent_table'` element, a table is its list of `tr` rows, a row
is its list of `td` cells, and a cell carries its text together with the
`href` of its `find('a', class_='tooltip')` anchor when that lookup and
the subscript both succeed (`none` models the raised exception). -/

namespace ABNormalProvider

structure Config where
  username : String
  password : String
  minseed : Int
  minleech : Int
deriving DecidableEq, Repr

structure Cell where
  text : String
  tooltipHref : Option String
deriving DecidableEq, Repr

structure Row where
  cells : List Cell
deriving DecidableEq, Repr

structure Page where
  torrentTable : Option (List Row)
deriving DecidableEq, Repr

/-- Collaborators of the adapter: the HTTP transport (keyed by the request
parameters the code builds), `convert_size` with the `O/KO/...` unit table,
and `requests.compat.urljoin` against `https://abnormal.ws`. A `none` body
models a falsy `get_url` result. -/
structure Env where
  loginBody : Option String
  searchPage : String → String → Option Page
  convertSize : String → Option Int
  urljoin : String → String

/-- `re.sub(r'[()]', '', search_string)`. -/
def stripParens (s : String) : String :=
  String.mk (s.toList.filter (fun c => ¬(c = '(' ∨ c = ')')))

/-- `ABNormalProvider.login`, instrumented with the number of `get_url`
calls it makes. -/
def login (_cfg : Config) (session : List (String × String)) (env : Env) :
    Bool × Nat :=
  if anyCookieTruthy session then (true, 0)
  else
    match env.loginBody with
    | none => (false, 1)
    | some response =>
      if response = "" then (false, 1)
      else if ¬ reSearch "torrents.php" response then (false, 1)
      else (true, 1)

/-- Body of the per-row `try` block (lines 123-150): any failed label
lookup, subscript, anchor lookup or attribute access raises and is caught
by the bare `except Exception`, so the row yields `none`. -/
def parseRow (cfg : Config) (env : Env) (labels : List String) (r : Row) :
    Option Item :=
  -- `if len(cells) < len(labels): continue`
  if r.cells.length < labels.length then none
  else
    -- `title = cells[labels.index('Release')].get_text(strip=True)`
    (labels.indexOf? "Release").bind fun iR =>
    (r.cells.get? iR).bind fun cR =>
    -- `download_url = urljoin(url, cells[labels.index('DL')].find('a', class_='tooltip')['href'])`
    (labels.indexOf? "DL").bind fun iD =>
    (r.cells.get? iD).bind fun cD =>
    cD.tooltipHref.bind fun href =>
    -- `if not all([title, download_url]): continue`
    if ¬(cR.text ≠ "" ∧ env.urljoin href ≠ "") then none
    else
      -- `seeders`, `leechers` via `try_int` of the cell text
      (labels.indexOf? "S").bind fun iS =>
      (r.cells.get? iS).bind fun cS =>
      (labels.indexOf? "L").bind fun iL =>
      (r.cells.get? iL).bind fun cL =>
      -- minimum-seeders / minimum-leechers admission filter
      if tryInt cS.text < cfg.minseed ∨ tryInt cL.text < cfg.minleech then none
      else
        -- `labels.index('Size') if 'Size' in labels else labels.index('Taille')`
        ((if labels.contains "Size" then labels.indexOf? "Size"
          else labels.indexOf? "Taille")).bind fun iZ =>
        (r.cells.get? iZ).bind fun cZ =>
        -- `size = convert_size(torrent_size, units=units) or -1`
        some ⟨cR.text, env.urljoin href,
          pyOr (env.convertSize cZ.text) (-1),
          tryInt cS.text, tryInt cL.text, ""⟩

/-- One `(mode, search_string)` fetch and its parse (lines 98-150). -/
def pairItems (cfg : Config) (env : Env) (mode : String) (searchString : String) :
    List Item :=
  -- `search_params['order'] = ('Seeders', 'Time')[mode == 'RSS']`
  olist (env.searchPage (if mode = "RSS" then "Time" else "Seeders")
      (stripParens searchString)) fun page =>
  -- `torrent_rows = torrent_table('tr') if torrent_table else []`
  olist page.torrentTable fun rows =>
  -- `if len(torrent_rows) < 2: continue`
  if rows.length < 2 then []
  else
    match rows with
    | [] => []
    | header :: rest =>
      -- `labels = [label.get_text(strip=True) for label in torrent_rows[0]('td')]`
      rest.filterMap (fun r => parseRow cfg env (header.cells.map (fun c => c.text)) r)

/-- All items a mode accumulates across its search strings, in discovery
order (the `items` list right before `items.sort`). -/
def modeItems (cfg : Config) (env : Env) (ms : String × List String) : List Item :=
  (ms.2.map (fun s => pairItems cfg env ms.1 s)).flatten

/-- `ABNormalProvider.search`: result list plus the total number of
`get_url` calls (login plus one fetch per `(mode, search_string)` pair). -/
def search (cfg : Config) (session : List (String × String)) (env : Env)
    (searchStrings : List (String × List String)) : List Item × Nat :=
  let lg := login cfg session env
  if ¬ lg.1 then ([], lg.2)
  else
    ((searchStrings.map (fun ms => pySortSeeders (modeItems cfg env ms))).flatten,
      lg.2 + (searchStrings.map (fun ms => ms.2.length)).sum)

theorem search_eq_join (cfg : Config) (session : List (String × String))
    (env : Env) (ss : List (String × List String)) :
    (search cfg session env ss).1 =
      if (login cfg session env).1 then
        (ss.map (fun ms => pySortSeeders (modeItems cfg env ms))).flatten
      else [] := by
  rw [search]
  by_cases h : (login cfg session env).1
  · simp [h]
  · simp [h]

/-- Shape of every item a successful row parse emits. -/
theorem ab_parseRow_inv {cfg : Config} {env : Env} {labels : List String}
    {r : Row} {it : Item} (h : parseRow cfg env labels r = some it) :
    it.title ≠ "" ∧ it.link ≠ "" ∧ cfg.minseed ≤ it.seeders ∧
      cfg.minleech ≤ it.leechers ∧
      (it.size = -1 ∨ (it.size ≠ 0 ∧ ∃ t, env.convertSize t = some it.size)) := by
  rw [parseRow] at h
  by_cases hlen : r.cells.length < labels.length
  · rw [if_pos hlen] at h; simp at h
  rw [if_neg hlen] at h
  simp only [Option.bind_eq_some] at h
  obtain ⟨iR, hR, cR, hcR, iD, hD, cD, hcD, href, hHref, h⟩ := h
  by_cases hne : cR.text ≠ "" ∧ env.urljoin href ≠ ""
  swap
  · rw [if_pos hne] at h; simp at h
  rw [if_neg (not_not_intro hne)] at h
  simp only [Option.bind_eq_some] at h
  obtain ⟨iS, hS, cS, hcS, iL, hL, cL, hcL, h⟩ := h
  by_cases hmin : tryInt cS.text < cfg.minseed ∨ tryInt cL.text < cfg.minleech
  · rw [if_pos hmin] at h; simp at h
  rw [if_neg hmin] at h
  simp only [Option.bind_eq_some] at h
  obtain ⟨iZ, hZ, cZ, hcZ, h⟩ := h
  push_neg at hmin
  injection h with h2
  subst h2
  refine ⟨hne.1, hne.2, hmin.1, hmin.2, ?_⟩
  rcases hcs : env.convertSize cZ.text with _ | v
  · left; simp [pyOr, hcs]
  · by_cases hv : v = 0
    · left; simp [pyOr, hcs, hv]
    · right
      refine ⟨by simp [pyOr, hcs, hv], cZ.text, by simp [pyOr, hcs, hv]⟩

theorem ab_mem_pairItems {cfg : Config} {env : Env} {mode s : String} {it : Item}
    (h : it ∈ pairItems cfg env mode s) :
    ∃ labels r, parseRow cfg env labels r = some it := by
  rw [pairItems] at h
  rw [mem_olist] at h
  obtain ⟨page, _, h⟩ := h
  rw [mem_olist] at h
  obtain ⟨rows, _, h⟩ := h
  rcases rows with _ | ⟨header, rest⟩
  · simp at h
  by_cases hlen : (header :: rest).length < 2
  · rw [if_pos hlen] at h; simp at h
  rw [if_neg hlen] at h
  simp only [List.mem_filterMap] at h
  obtain ⟨r, _, hr⟩ := h
  exact ⟨header.cells.map (fun c => c.text), r, hr⟩

/-- Every item in the output of `ABNormalProvider.search` came out of a
successful row parse. -/
theorem mem_search {cfg : Config} {session : List (String × String)}
    {env : Env} {ss : List (String × List String)} {it : Item}
    (h : it ∈ (search cfg session env ss).1) :
    ∃ labels r, parseRow cfg env labels r = some it := by
  rw [search_eq_join] at h
  by_cases hl : (login cfg session env).1
  swap
  · rw [if_neg hl] at h; simp at h
  rw [if_pos hl, List.mem_flatten] at h
  obtain ⟨b, hb, hib⟩ := h
  rw [List.mem_map] at hb
  obtain ⟨ms, _, rfl⟩ := hb
  rw [mem_pySortSeeders, modeItems, List.mem_flatten] at hib
  obtain ⟨c, hc, hic⟩ := hib
  rw [List.mem_map] at hc
  obtain ⟨s, _, rfl⟩ := hc
  exact ab_mem_pairItems hic

end ABNormalProvider

/-! ## Ncore (`ncore.py`)

JSON provider. The body handed to `json.loads` is embedded as the outcome
of that call: `invalidJson` when `json.loads` raises `ValueError` (caught
by the `except ValueError: continue`), `nonDict` when the parsed value is
not a mapping, and `jsonDict` for a mapping, whose `total_results` and
`results` keys are optional — a missing key makes the uncaught subscript
`parsed_json['total_results']` / `parsed_json['results']` raise `KeyError`.
A `none` transport result models `get_url` returning `None`, on which
`json.loads(None)` raises `TypeError`, which `except ValueError` does not
catch. -/

namespace NcoreProvider

structure Config where
  username : String
  password : String
  minseed : Int
  minleech : Int
deriving DecidableEq, Repr

/-- One element of `parsed_json['results']`; `none` fields model missing
keys, whose `item.pop(...)` (no default) raises `KeyError`, caught by the
per-row `except Exception`. `size` is popped with default `-1`. -/
structure NItem where
  release_name : Option String
  download_url : Option String
  seeders : Option Int
  leechers : Option Int
  size : Option Int
deriving DecidableEq, Repr

inductive Body where
  | invalidJson
  | nonDict
  | jsonDict (total_results : Option Int) (results : Option (List NItem))
deriving DecidableEq, Repr

/-- Collaborators: transport keyed by the interpolated search string, and
`convert_size` applied to the numeric `size` value popped from the item. -/
structure Env where
  loginBody : Option String
  fetch : String → Option Body
  convertSizeNum : Int → Option Int

/-- `NcoreProvider.login` (lines 45-62): it never consults the session
cookie jar — every call posts the credentials. Instrumented with the
number of `get_url` calls. -/
def login (_cfg : Config) (_session : List (String × String)) (env : Env) :
    Bool × Nat :=
  match env.loginBody with
  | none => (false, 1)
  | some response =>
    if response = "" then (false, 1)
    else if reSearch "images/warning.png" response then (false, 1)
    else (true, 1)

/-- Per-row `try` block (lines 98-122). -/
def parseItem (cfg : Config) (env : Env) (it : NItem) : Option Item :=
  it.release_name.bind fun title =>
  it.download_url.bind fun download_url =>
  -- `if not all([title, download_url]): continue`
  if ¬(title ≠ "" ∧ download_url ≠ "") then none
  else
    it.seeders.bind fun seeders =>
    it.leechers.bind fun leechers =>
    if seeders < cfg.minseed ∨ leechers < cfg.minleech then none
    else
      -- `size = convert_size(item.pop("size", -1)) or -1`
      some ⟨title, download_url,
        pyOr (env.convertSizeNum (it.size.getD (-1))) (-1),
        seeders, leechers, ""⟩

/-- One `(mode, search_string)` fetch and parse (lines 77-122); `Except`
carries the exceptions that escape `search`. -/
def pairItems (cfg : Config) (env : Env) (s : String) :
    Except PyErr (List Item) :=
  -- `json.loads(data)` on a `None` body raises `TypeError`, which the
  -- `except ValueError` on line 82 does not catch
  elist (env.fetch s) .typeError fun body =>
  match body with
  | .invalidJson => .ok []   -- `except ValueError as e: continue`
  | .nonDict => .ok []       -- `if not isinstance(parsed_json, dict): continue`
  | .jsonDict total_results results =>
    -- `torrent_results = parsed_json['total_results']`: `KeyError` when absent
    elist total_results .keyError fun total =>
    -- `if not torrent_results: continue`
    if total = 0 then .ok []
    else
      -- `parsed_json['results']`: `KeyError` when absent
      elist results .keyError fun items =>
      .ok (items.filterMap (parseItem cfg env))

/-- The strings of one mode, accumulating `items` left to right; the count
is the number of fetches actually issued before returning or raising. -/
def stringsItems (cfg : Config) (env : Env) : List String →
    Except PyErr (List Item) × Nat
  | [] => (.ok [], 0)
  | s :: rest =>
    match pairItems cfg env s with
    | .error e => (.error e, 1)
    | .ok items =>
      match stringsItems cfg env rest with
      | (.error e, n) => (.error e, 1 + n)
      | (.ok more, n) => (.ok (items ++ more), 1 + n)

/-- Items one mode discovers, in discovery order (defined only when no
exception occurs; on the exception-free path it equals the `items` list
right before `items.sort`). -/
def modeItems (cfg : Config) (env : Env) (strs : List String) : List Item :=
  (strs.map (fun s =>
    match pairItems cfg env s with
    | .ok l => l
    | .error _ => [])).flatten

/-- The mode loop (lines 69-126): per-mode items are sorted by seeders and
appended to `results`. -/
def modesGo (cfg : Config) (env : Env) : List (String × List String) →
    Except PyErr (List Item) × Nat
  | [] => (.ok [], 0)
  | (_, strs) :: rest =>
    match stringsItems cfg env strs with
    | (.error e, n) => (.error e, n)
    | (.ok items, n) =>
      match modesGo cfg env rest with
      | (.error e, m) => (.error e, n + m)
      | (.ok more, m) => (.ok (pySortSeeders items ++ more), n + m)

/-- `NcoreProvider.search`: login, then the mode sweep. -/
def search (cfg : Config) (session : List (String × String)) (env : Env)
    (searchStrings : List (String × List String)) :
    Except PyErr (List Item) × Nat :=
  let lg := login cfg session env
  if ¬ lg.1 then (.ok [], lg.2)
  else
    match modesGo cfg env searchStrings with
    | (r, m) => (r, lg.2 + m)

theorem nc_parseItem_inv {cfg : Config} {env : Env} {x : NItem} {it : Item}
    (h : parseItem cfg env x = some it) :
    it.title ≠ "" ∧ it.link ≠ "" ∧ cfg.minseed ≤ it.seeders ∧
      cfg.minleech ≤ it.leechers ∧
      (it.size = -1 ∨ (it.size ≠ 0 ∧ ∃ v, env.convertSizeNum v = some it.size)) := by
  rw [parseItem] at h
  simp only [Option.bind_eq_some] at h
  obtain ⟨title, hT, durl, hU, h⟩ := h
  by_cases hne : title ≠ "" ∧ durl ≠ ""
  swap
  · rw [if_pos hne] at h; simp at h
  rw [if_neg (not_not_intro hne)] at h
  simp only [Option.bind_eq_some] at h
  obtain ⟨seeders, hSe, leechers, hLe, h⟩ := h
  by_cases hmin : seeders < cfg.minseed ∨ leechers < cfg.minleech
  · rw [if_pos hmin] at h; simp at h
  rw [if_neg hmin] at h
  push_neg at hmin
  injection h with h2
  subst h2
  refine ⟨hne.1, hne.2, hmin.1, hmin.2, ?_⟩
  rcases hcs : env.convertSizeNum (x.size.getD (-1)) with _ | v
  · left; simp [pyOr, hcs]
  · by_cases hv : v = 0
    · left; simp [pyOr, hcs, hv]
    · right
      refine ⟨by simp [pyOr, hcs, hv], x.size.getD (-1), by simp [pyOr, hcs, hv]⟩

/-- On the exception-free path the strings of a mode contribute exactly
their discovery-ordered item lists, concatenated. -/
theorem stringsItems_ok {cfg : Config} {env : Env} {strs : List String}
    {l : List Item} {n : Nat} (h : stringsItems cfg env strs = (.ok l, n)) :
    l = modeItems cfg env strs := by
  induction strs generalizing l n with
  | nil =>
    rw [stringsItems] at h
    injection h with h1 _
    injection h1 with h1
    simp [modeItems, ← h1]
  | cons s rest ih =>
    rw [stringsItems] at h
    rcases hp : pairItems cfg env s with e | items <;> rw [hp] at h
    · simp at h
    · rcases hrest : stringsItems cfg env rest with ⟨r, m⟩
      rw [hrest] at h
      rcases r with e | more
      · simp at h
      · simp only [Prod.mk.injEq] at h
        obtain ⟨h1, _⟩ := h
        injection h1 with h1
        subst h1
        simp [modeItems, hp, ih hrest]

theorem modesGo_ok {cfg : Config} {env : Env} {ss : List (String × List String)}
    {l : List Item} {m : Nat} (h : modesGo cfg env ss = (.ok l, m)) :
    l = (ss.map (fun ms => pySortSeeders (modeItems cfg env ms.2))).flatten := by
  induction ss generalizing l m with
  | nil =>
    rw [modesGo] at h
    injection h with h1 _
    injection h1 with h1
    simp [← h1]
  | cons ms rest ih =>
    obtain ⟨mode, strs⟩ := ms
    rw [modesGo] at h
    rcases hs : stringsItems cfg env strs with ⟨r, n⟩
    rw [hs] at h
    rcases r with e | items
    · simp at h
    · rcases hm : modesGo cfg env rest with ⟨r2, m2⟩
      rw [hm] at h
      rcases r2 with e | more
      · simp at h
      · simp only [Prod.mk.injEq] at h
        obtain ⟨h1, _⟩ := h
        injection h1 with h1
        subst h1
        simp [stringsItems_ok hs, ih hm]

theorem mem_pairItems_ok {cfg : Config} {env : Env} {s : String}
    {l : List Item} {it : Item} (hp : pairItems cfg env s = .ok l)
    (hit : it ∈ l) : ∃ x, parseItem cfg env x = some it := by
  rw [pairItems, elist_eq_ok] at hp
  obtain ⟨body, _, hp⟩ := hp
  rcases body with _ | _ | ⟨tr, res⟩
  · injection hp with hp; subst hp; simp at hit
  · injection hp with hp; subst hp; simp at hit
  · rw [show (match Body.jsonDict tr res with
      | .invalidJson => (.ok [] : Except PyErr (List Item))
      | .nonDict => .ok []
      | .jsonDict total_results results =>
        elist total_results .keyError fun total =>
        if total = 0 then .ok []
        else
          elist results .keyError fun items =>
          .ok (items.filterMap (parseItem cfg env))) =
      elist tr .keyError (fun total =>
        if total = 0 then (.ok [] : Except PyErr (List Item))
        else
          elist res .keyError fun items =>
          .ok (items.filterMap (parseItem cfg env))) from rfl,
      elist_eq_ok] at hp
    obtain ⟨total, _, hp⟩ := hp
    by_cases htot : total = 0
    · rw [if_pos htot] at hp
      injection hp with hp; subst hp; simp at hit
    · rw [if_neg htot, elist_eq_ok] at hp
      obtain ⟨items, _, hp⟩ := hp
      injection hp with hp
      subst hp
      obtain ⟨x, _, hx⟩ := List.mem_filterMap.mp hit
      exact ⟨x, hx⟩

theorem mem_modeItems {cfg : Config} {env : Env} {strs : List String}
    {it : Item} (h : it ∈ modeItems cfg env strs) :
    ∃ x, parseItem cfg env x = some it := by
  rw [modeItems, List.mem_flatten] at h
  obtain ⟨c, hc, hic⟩ := h
  rw [List.mem_map] at hc
  obtain ⟨s, _, rfl⟩ := hc
  rcases hp : pairItems cfg env s with e | l2 <;> rw [hp] at hic
  · simp at hic
  · simp only at hic
    exact mem_pairItems_ok hp hic

/-- Every item in a non-raising `NcoreProvider.search` run came out of a
successful item parse. -/
theorem nc_mem_search_ok {cfg : Config} {session : List (String × String)}
    {env : Env} {ss : List (String × List String)} {l : List Item} {it : Item}
    (hok : (search cfg session env ss).1 = .ok l) (hit : it ∈ l) :
    ∃ x, parseItem cfg env x = some it := by
  rw [search] at hok
  by_cases hl : (login cfg session env).1
  swap
  · simp only [hl, Bool.false_eq_true, not_false_eq_true, if_pos] at hok
    injection hok with hok
    subst hok
    simp at hit
  · simp only [hl, not_true_eq_false, if_neg, Bool.not_eq_true] at hok
    rcases hm : modesGo cfg env ss with ⟨r, m⟩
    rw [hm] at hok
    simp only at hok
    subst hok
    rw [modesGo_ok hm, List.mem_flatten] at hit
    obtain ⟨b, hb, hib⟩ := hit
    rw [List.mem_map] at hb
    obtain ⟨ms, _, rfl⟩ := hb
    rw [mem_pySortSeeders] at hib
    exact mem_modeItems hib

/-- Every `login` call issues exactly one network request: there is no
session fast path in this provider. -/
theorem login_snd (cfg : Config) (session : List (String × String))
    (env : Env) : (login cfg session env).2 = 1 := by
  rw [login]
  rcases env.loginBody with _ | r
  · rfl
  · by_cases h1 : r = ""
    · simp [h1]
    · by_cases h2 : reSearch "images/warning.png" r <;> simp [h1, h2]

/-- On a successful login, a non-raising search run is the concatenation
of the per-mode seeder-sorted blocks. -/
theorem search_ok_structure {cfg : Config} {session : List (String × String)}
    {env : Env} {ss : List (String × List String)} {l : List Item}
    (hl : (login cfg session env).1 = true)
    (hok : (search cfg session env ss).1 = .ok l) :
    l = (ss.map (fun ms => pySortSeeders (modeItems cfg env ms.2))).flatten := by
  rw [search] at hok
  simp only [hl, not_true_eq_false, if_neg, Bool.not_eq_true] at hok
  rcases hm : modesGo cfg env ss with ⟨r, m⟩
  rw [hm] at hok
  simp only at hok
  subst hok
  exact modesGo_ok hm

/-- A `None` transport body makes `json.loads` raise a `TypeError` that
`except ValueError` does not catch: `search` raises. -/
theorem search_typeError {cfg : Config} {session : List (String × String)}
    {env : Env} {m s : String} {rest : List String}
    {more : List (String × List String)}
    (hl : (login cfg session env).1 = true) (hf : env.fetch s = none) :
    (search cfg session env ((m, s :: rest) :: more)).1 = .error .typeError := by
  have hpair : pairItems cfg env s = .error .typeError := by
    rw [pairItems]
    simp [hf, elist]
  have hsi : stringsItems cfg env (s :: rest) = (.error .typeError, 1) := by
    rw [stringsItems]
    simp only [hpair]
  rw [search]
  simp only [hl, not_true_eq_false, if_neg, Bool.not_eq_true]
  rw [modesGo]
  simp only [hsi]
  simp

end NcoreProvider

/-! ## Norbits (`norbits.py`)

JSON provider with no `login`; authentication is a username/passkey pair
sent in the POST body, checked by `_check_auth` before every fetch. The
`returns='json'` response is embedded as `Option Response`: `none` models
a falsy `parsed_json` (transport failure or falsy JSON), triggering the
`return results` on line 87. Inside a truthy mapping, `data = none`
models a missing or non-mapping `'data'` entry: `parsed_json.get('data',
'')` then hands `''` (or `None`) to `.get('torrents', [])`, raising an
uncaught `AttributeError` — right after line 92 logged that the JSON "is
not correct, not parsing it". -/

namespace NorbitsProvider

structure Config where
  username : String
  passkey : String
  minseed : Int
  minleech : Int
deriving DecidableEq, Repr

/-- One element of `data['torrents']`; every `item.pop` has a default, so
a missing key never raises here. -/
structure NbItem where
  name : Option String
  id : Option String
  seeders : Option Int
  leechers : Option Int
  info_hash : Option String
  size : Option Int
deriving DecidableEq, Repr

/-- The `'data'` mapping; a missing `'torrents'` key defaults to `[]`. -/
structure NbData where
  torrents : Option (List NbItem)
deriving DecidableEq, Repr

structure Response where
  status : Option Int
  message : Option String
  data : Option NbData
deriving DecidableEq, Repr

/-- Collaborators: transport keyed by the search string of the POST body,
`convert_size(value, -1)` on the numeric size, and `urlencode` over the
`{'id': ..., 'passkey': ...}` mapping. -/
structure Env where
  fetch : String → Option Response
  convertSizeNum : Int → Option Int
  urlencode : String → String → String

/-- `NorbitsProvider._check_auth` (lines 44-50): missing username or
passkey raises `AuthException`. -/
def check_auth (cfg : Config) : Except PyErr Bool :=
  if cfg.username = "" ∨ cfg.passkey = "" then .error .authException
  else .ok true

/-- `NorbitsProvider._check_auth_from_data` (lines 52-59): the
`status == 3` check only emits a log warning; the function returns `True`
for every input. -/
def check_auth_from_data (_parsedJson : Response) : Bool :=
  true

/-- Per-item body of the torrents loop (lines 94-117); no try/except here,
and none of these operations can raise. -/
def parseItem (cfg : Config) (env : Env) (it : NbItem) : Option Item :=
  -- `title = item.pop('name', '')`, `download_url = urls['download'] + urlencode(...)`
  let title := it.name.getD ""
  let download_url :=
    "https://norbits.net/download.php?" ++ env.urlencode (it.id.getD "") cfg.passkey
  -- `if not all([title, download_url]): continue`
  if ¬(title ≠ "" ∧ download_url ≠ "") then none
  else
    -- `seeders = try_int(item.pop('seeders', 0))`, same for leechers
    let seeders := it.seeders.getD 0
    let leechers := it.leechers.getD 0
    if seeders < cfg.minseed ∨ leechers < cfg.minleech then none
    else
      -- `size = convert_size(item.pop('size', -1), -1)` — default `-1`, no `or`
      some ⟨title, download_url,
        (env.convertSizeNum (it.size.getD (-1))).getD (-1),
        seeders, leechers, it.info_hash.getD ""⟩

/-- Items contributed by one `(mode, search_string)` fetch when the fetch
is truthy and its `data` entry is usable. -/
def pairItems (cfg : Config) (env : Env) (s : String) : List Item :=
  olist (env.fetch s) fun resp =>
  olist resp.data fun d =>
  (d.torrents.getD []).filterMap (parseItem cfg env)

/-- Outcome of the search-string loop of one mode. -/
inductive StrStep where
  | err (e : PyErr)
  | earlyRet
  | done (items : List Item)
deriving DecidableEq, Repr

/-- The search-string loop (lines 70-117): `_check_auth` before each
fetch, `return results` on a falsy response, `AttributeError` on a truthy
response without a usable `'data'` mapping. -/
def stringsGo (cfg : Config) (env : Env) : List String → List Item → StrStep
  | [], items => .done items
  | s :: rest, items =>
    match check_auth cfg with
    | .error e => .err e
    | .ok _ =>
      match env.fetch s with
      | none => .earlyRet
      | some resp =>
        -- `if self._check_auth_from_data(parsed_json):` — always `True`
        match resp.data with
        | none => .err .attributeError
        | some d =>
          stringsGo cfg env rest
            (items ++ (d.torrents.getD []).filterMap (parseItem cfg env))

/-- The mode loop (lines 66-121): an early `return results` surrenders the
results accumulated by the completed modes and drops the current mode's
pending `items`. -/
def modesGo (cfg : Config) (env : Env) : List (String × List String) →
    List Item → Except PyErr (List Item)
  | [], results => .ok results
  | (_, strs) :: rest, results =>
    match stringsGo cfg env strs [] with
    | .err e => .error e
    | .earlyRet => .ok results
    | .done items => modesGo cfg env rest (results ++ pySortSeeders items)

/-- `NorbitsProvider.search`. -/
def search (cfg : Config) (env : Env)
    (searchStrings : List (String × List String)) : Except PyErr (List Item) :=
  modesGo cfg env searchStrings []

/-- Items one mode discovers across its search strings, in discovery order
(meaningful on the runs that finish the mode loop normally). -/
def modeItems (cfg : Config) (env : Env) (strs : List String) : List Item :=
  (strs.map (fun s => pairItems cfg env s)).flatten

theorem nb_parseItem_inv {cfg : Config} {env : Env} {x : NbItem} {it : Item}
    (h : parseItem cfg env x = some it) :
    it.title ≠ "" ∧ it.link ≠ "" ∧ cfg.minseed ≤ it.seeders ∧
      cfg.minleech ≤ it.leechers := by
  rw [parseItem] at h
  by_cases hne : x.name.getD "" ≠ "" ∧
      "https://norbits.net/download.php?" ++
        env.urlencode (x.id.getD "") cfg.passkey ≠ ""
  swap
  · rw [if_pos hne] at h; simp at h
  rw [if_neg (not_not_intro hne)] at h
  by_cases hmin : x.seeders.getD 0 < cfg.minseed ∨ x.leechers.getD 0 < cfg.minleech
  · rw [if_pos hmin] at h; simp at h
  rw [if_neg hmin] at h
  push_neg at hmin
  injection h with h2
  subst h2
  exact ⟨hne.1, hne.2, hmin.1, hmin.2⟩

theorem nb_mem_stringsGo {cfg : Config} {env : Env} {strs : List String}
    {acc items : List Item} {it : Item}
    (h : stringsGo cfg env strs acc = .done items) (hit : it ∈ items) :
    it ∈ acc ∨ ∃ x, parseItem cfg env x = some it := by
  induction strs generalizing acc with
  | nil =>
    rw [stringsGo] at h
    injection h with h
    subst h
    exact Or.inl hit
  | cons s rest ih =>
    rw [stringsGo] at h
    rcases hca : check_auth cfg with e | b
    · simp only [hca] at h; exact absurd h (by simp)
    simp only [hca] at h
    rcases hf : env.fetch s with _ | resp
    · simp only [hf] at h; exact absurd h (by simp)
    simp only [hf] at h
    rcases hd : resp.data with _ | d
    · simp only [hd] at h; exact absurd h (by simp)
    simp only [hd] at h
    rcases ih h with hacc | hp
    · rcases List.mem_append.mp hacc with h1 | h2
      · exact Or.inl h1
      · obtain ⟨x, _, hx⟩ := List.mem_filterMap.mp h2
        exact Or.inr ⟨x, hx⟩
    · exact Or.inr hp

theorem nb_mem_modesGo {cfg : Config} {env : Env}
    {ss : List (String × List String)} {results l : List Item} {it : Item}
    (h : modesGo cfg env ss results = .ok l) (hit : it ∈ l) :
    it ∈ results ∨ ∃ x, parseItem cfg env x = some it := by
  induction ss generalizing results with
  | nil =>
    rw [modesGo] at h
    injection h with h
    subst h
    exact Or.inl hit
  | cons ms rest ih =>
    obtain ⟨mode, strs⟩ := ms
    rw [modesGo] at h
    rcases hsg : stringsGo cfg env strs [] with e | _ | items2
    · simp only [hsg] at h; exact absurd h (by simp)
    · simp only [hsg] at h
      injection h with h
      subst h
      exact Or.inl hit
    · simp only [hsg] at h
      rcases ih h with hres | hp
      · rcases List.mem_append.mp hres with h1 | h2
        · exact Or.inl h1
        · rw [mem_pySortSeeders] at h2
          rcases nb_mem_stringsGo hsg h2 with h3 | h3
          · simp at h3
          · exact Or.inr h3
      · exact Or.inr hp

/-- Every item in a non-raising `NorbitsProvider.search` run came out of a
successful item parse. -/
theorem nb_mem_search_ok {cfg : Config} {env : Env}
    {ss : List (String × List String)} {l : List Item} {it : Item}
    (h : search cfg env ss = .ok l) (hit : it ∈ l) :
    ∃ x, parseItem cfg env x = some it := by
  rcases nb_mem_modesGo h hit with h1 | h1
  · simp at h1
  · exact h1

/-- With credentials configured and every fetch truthy with a usable
`'data'` mapping, the string loop finishes the mode and contributes the
discovery-ordered concatenation of its per-fetch items. -/
theorem stringsGo_done {cfg : Config} {env : Env}
    (hu : cfg.username ≠ "") (hp : cfg.passkey ≠ "")
    (hf : ∀ s, ∃ r d, env.fetch s = some r ∧ r.data = some d)
    (strs : List String) (acc : List Item) :
    stringsGo cfg env strs acc = .done (acc ++ modeItems cfg env strs) := by
  induction strs generalizing acc with
  | nil => simp [stringsGo, modeItems]
  | cons s rest ih =>
    obtain ⟨r, d, hfs, hd⟩ := hf s
    have hca : check_auth cfg = .ok true := by
      rw [check_auth, if_neg]
      push_neg
      exact ⟨hu, hp⟩
    rw [stringsGo]
    simp only [hca, hfs, hd]
    rw [ih]
    have hpair : pairItems cfg env s =
        (d.torrents.getD []).filterMap (parseItem cfg env) := by
      rw [pairItems]
      simp only [hfs, hd, olist]
    simp [modeItems, ← hpair, List.append_assoc]

theorem modesGo_done {cfg : Config} {env : Env}
    (hu : cfg.username ≠ "") (hp : cfg.passkey ≠ "")
    (hf : ∀ s, ∃ r d, env.fetch s = some r ∧ r.data = some d)
    (ss : List (String × List String)) (results : List Item) :
    modesGo cfg env ss results =
      .ok (results ++
        (ss.map (fun ms => pySortSeeders (modeItems cfg env ms.2))).flatten) := by
  induction ss generalizing results with
  | nil => simp [modesGo]
  | cons ms rest ih =>
    obtain ⟨mode, strs⟩ := ms
    rw [modesGo]
    simp only [stringsGo_done hu hp hf strs [], List.nil_append]
    rw [ih]
    simp

theorem modesGo_authException {cfg : Config} {env : Env}
    (hcred : cfg.username = "" ∨ cfg.passkey = "")
    {ss : List (String × List String)} (hne : ∃ p ∈ ss, p.2 ≠ []) :
    ∀ results, modesGo cfg env ss results = .error .authException := by
  have hca : check_auth cfg = .error .authException := by
    rw [check_auth, if_pos hcred]
  induction ss with
  | nil => simp at hne
  | cons ms rest ih =>
    intro results
    obtain ⟨mode, strs⟩ := ms
    rw [modesGo]
    rcases strs with _ | ⟨s, srest⟩
    · simp only [show stringsGo cfg env [] [] = .done [] from rfl]
      rcases hne with ⟨p, hps, hpne⟩
      rcases List.mem_cons.mp hps with rfl | hps2
      · simp at hpne
      · exact ih ⟨p, hps2, hpne⟩ _
    · have hsg : stringsGo cfg env (s :: srest) [] = .err .authException := by
        rw [stringsGo]
        simp only [hca]
      simp only [hsg]

/-- `_check_auth` stops the sweep with `AuthException` as soon as any mode
offers a search string, when username or passkey is missing. -/
theorem search_authException {cfg : Config} {env : Env}
    {ss : List (String × List String)}
    (hcred : cfg.username = "" ∨ cfg.passkey = "")
    (hne : ∃ p ∈ ss, p.2 ≠ []) :
    search cfg env ss = .error .authException := by
  rw [search]
  exact modesGo_authException hcred hne []

/-- A truthy response without a usable `'data'` mapping raises an uncaught
`AttributeError` out of `search`. -/
theorem search_attributeError {cfg : Config} {env : Env} {m s : String}
    {rest : List String} {more : List (String × List String)} {r : Response}
    (hu : cfg.username ≠ "") (hp : cfg.passkey ≠ "")
    (hfs : env.fetch s = some r) (hd : r.data = none) :
    search cfg env ((m, s :: rest) :: more) = .error .attributeError := by
  have hca : check_auth cfg = .ok true := by
    rw [check_auth, if_neg]
    push_neg
    exact ⟨hu, hp⟩
  have hsg : stringsGo cfg env (s :: rest) [] = .err .attributeError := by
    rw [stringsGo]
    simp only [hca, hfs, hd]
  rw [search, modesGo]
  simp only [hsg]

/-- A falsy response makes `search` return the results accumulated so far
(`return results` on line 87), dropping the rest of the sweep; at the
first pair that is the empty list. -/
theorem search_earlyReturn {cfg : Config} {env : Env} {m s : String}
    {rest : List String} {more : List (String × List String)}
    (hu : cfg.username ≠ "") (hp : cfg.passkey ≠ "")
    (hfs : env.fetch s = none) :
    search cfg env ((m, s :: rest) :: more) = .ok [] := by
  have hca : check_auth cfg = .ok true := by
    rw [check_auth, if_neg]
    push_neg
    exact ⟨hu, hp⟩
  have hsg : stringsGo cfg env (s :: rest) [] = .earlyRet := by
    rw [stringsGo]
    simp only [hca, hfs]
  rw [search, modesGo]
  simp only [hsg]

theorem parseItem_congr {cfg : Config} {env1 env2 : Env}
    (hcs : env1.convertSizeNum = env2.convertSizeNum)
    (hue : env1.urlencode = env2.urlencode) :
    parseItem cfg env1 = parseItem cfg env2 := by
  funext x
  rw [parseItem, parseItem, hcs, hue]

theorem stringsGo_congr {cfg : Config} {env1 env2 : Env}
    (hcs : env1.convertSizeNum = env2.convertSizeNum)
    (hue : env1.urlencode = env2.urlencode)
    (hfd : ∀ s, (env1.fetch s).map Response.data =
      (env2.fetch s).map Response.data) :
    ∀ strs acc, stringsGo cfg env1 strs acc = stringsGo cfg env2 strs acc := by
  intro strs
  induction strs with
  | nil => intro _; rfl
  | cons s rest ih =>
    intro acc
    rw [stringsGo, stringsGo]
    rcases hca : check_auth cfg with e | b <;> simp only [hca]
    have hd := hfd s
    rcases h1 : env1.fetch s with _ | r1 <;> rcases h2 : env2.fetch s with _ | r2 <;>
      simp only [h1, h2, Option.map_none', Option.map_some', Option.some.injEq]
        at hd ⊢
    · simp at hd
    · simp at hd
    · simp only [hd]
      rcases hr : r2.data with _ | d
      · simp only [hr]
      · simp only [hr]
        rw [parseItem_congr hcs hue]
        exact ih _

theorem modesGo_congr {cfg : Config} {env1 env2 : Env}
    (hcs : env1.convertSizeNum = env2.convertSizeNum)
    (hue : env1.urlencode = env2.urlencode)
    (hfd : ∀ s, (env1.fetch s).map Response.data =
      (env2.fetch s).map Response.data) :
    ∀ ss results, modesGo cfg env1 ss results = modesGo cfg env2 ss results := by
  intro ss
  induction ss with
  | nil => intro _; rfl
  | cons ms rest ih =>
    intro results
    obtain ⟨mode, strs⟩ := ms
    rw [modesGo, modesGo]
    rw [stringsGo_congr hcs hue hfd strs []]
    rcases hsg : stringsGo cfg env2 strs [] with e | _ | items <;> simp only [hsg]
    exact ih _

/-- The search result never depends on the `status`/`message` fields that
`_check_auth_from_data` inspects: two environments whose fetches agree on
everything except those fields produce identical results. -/
theorem search_congr {cfg : Config} {env1 env2 : Env}
    (hcs : env1.convertSizeNum = env2.convertSizeNum)
    (hue : env1.urlencode = env2.urlencode)
    (hfd : ∀ s, (env1.fetch s).map Response.data =
      (env2.fetch s).map Response.data)
    (ss : List (String × List String)) :
    search cfg env1 ss = search cfg env2 ss := by
  rw [search, search]
  exact modesGo_congr hcs hue hfd ss []

end NorbitsProvider

/-! ## IPTorrents (`iptorrents.py`)

HTML-table provider. The page is embedded at the granularity the code
accesses it. Per-row failures are split by exception class exactly as the
handlers are nested: a missing anchor / attribute raises
`AttributeError`/`TypeError`/`KeyError` and is caught by the inner
per-row handler (`skip`); an out-of-range `td` subscript (`IndexError`)
or a non-numeric `int()` argument (`ValueError`) is not in that tuple and
unwinds to the outer per-page `except Exception` (`pageAbort`), which
keeps the items already appended and moves on to the next search string. -/

namespace IPTorrentsProvider

structure Config where
  username : String
  password : String
  minseed : Int
  minleech : Int
  custom_url : String
  cookies : String
  freeleech : Bool
deriving DecidableEq, Repr

structure Anchor where
  text : String
  href : Option String
deriving DecidableEq, Repr

structure TCell where
  anchor : Option Anchor
  text : String
deriving DecidableEq, Repr

structure TRow where
  tds : List TCell
  seedersText : Option String
  leechersText : Option String
deriving DecidableEq, Repr

structure TPage where
  falsyHtml : Bool
  noTorrentsFound : Bool
  torrentTable : Option (List TRow)
deriving DecidableEq, Repr

structure Form where
  action : Option String
deriving DecidableEq, Repr

structure IndexPage where
  loginForm : Option Form
deriving DecidableEq, Repr

/-- Collaborators: `validators.url`, the base-class `add_cookies_from_ui`
(not part of the translated sources; only its success flag is observed
here), the transport (index page, login POST, search fetch keyed by the
full URL), `convert_size` and `requests.compat.urljoin`. -/
structure Env where
  urlValid : String → Bool
  addCookiesSuccess : Bool
  indexBody : Option IndexPage
  loginBody : Option String
  searchPage : String → Option TPage
  convertSize : String → Option Int
  urljoin : String → String → String

/-- `IPTorrentsProvider.login` (lines 50-102), instrumented with the
number of `get_url` calls; the `html.find('form', ...)` returning `None`
makes `.get('action')` raise an uncaught `AttributeError`. -/
def login (cfg : Config) (session : List (String × String)) (env : Env) :
    Except PyErr Bool × Nat :=
  -- `if cookie_dict.get('uid') and cookie_dict.get('pass'): return True`
  if (session.lookup "uid").getD "" ≠ "" ∧ (session.lookup "pass").getD "" ≠ "" then
    (.ok true, 0)
  else if cfg.cookies ≠ "" ∧ ¬ env.addCookiesSuccess then (.ok false, 0)
  else if cfg.custom_url ≠ "" ∧ ¬ env.urlValid cfg.custom_url then (.ok false, 0)
  else
    -- `data = self.get_url(self.config('custom_url') or self.url, returns='text')`
    match env.indexBody with
    | none => (.ok false, 1)
    | some page =>
      match page.loginForm with
      | none => (.error .attributeError, 1)
      | some form =>
        match form.action with
        | none => (.ok false, 1)
        | some action =>
          if action = "" then (.ok false, 1)
          else
            match env.loginBody with
            | none => (.ok false, 2)
            | some response =>
              if response = "" then (.ok false, 2)
              else if reSearch "Invalid username and password combination" response then
                (.ok false, 2)
              else if reSearch "You tried too often" response then (.ok false, 2)
              else if reSearch "Captcha verification failed." response then (.ok false, 2)
              else (.ok true, 2)

/-- The search URL (lines 118-126): categories `73=&60=`, the freeleech
flag, the search string, and `;o=seeders` outside RSS mode; with a custom
URL the part after the base URL is re-joined onto it. -/
def searchUrl (cfg : Config) (env : Env) (mode s : String) : String :=
  let freeleech := if cfg.freeleech then "&free=on" else ""
  let u0 := "https://iptorrents.eu/t?" ++ "73=&60=" ++ freeleech ++ "&q=" ++ s ++
    "&qf=#torrents"
  let u := if mode ≠ "RSS" then u0 ++ ";o=seeders" else u0
  if cfg.custom_url ≠ "" then
    env.urljoin cfg.custom_url (u.drop "https://iptorrents.eu".length)
  else u

/-- Row-level outcome. -/
inductive RowStep where
  | ok (it : Item)
  | skip
  | pageAbort
deriving DecidableEq, Repr

/-- A lookup whose failure raises one of `AttributeError`/`TypeError`/
`KeyError`, caught by the inner per-row handler: the row is skipped. -/
def rskip {α : Type} (o : Option α) (k : α → RowStep) : RowStep :=
  match o with
  | none => .skip
  | some a => k a

/-- A lookup whose failure raises `IndexError` or `ValueError`, which the
inner handler does not catch: the whole page parse is abandoned. -/
def rabort {α : Type} (o : Option α) (k : α → RowStep) : RowStep :=
  match o with
  | none => .pageAbort
  | some a => k a

/-- The body of the per-row loop (lines 151-176). -/
def parseRow (cfg : Config) (env : Env) (u : String) (r : TRow) : RowStep :=
  -- `title = result('td')[1].find('a').text`
  rabort (r.tds.get? 1) fun c1 =>
  rskip c1.anchor fun a1 =>
  -- `download_url = urljoin(search_url, result('td')[3].find('a')['href'])`
  rabort (r.tds.get? 3) fun c3 =>
  rskip c3.anchor fun a3 =>
  rskip a3.href fun href =>
  -- `seeders = int(result.find('td', class_='ac t_seeders').text)`
  rskip r.seedersText fun st =>
  rabort (pyInt st) fun seeders =>
  rskip r.leechersText fun lt =>
  rabort (pyInt lt) fun leechers =>
  -- `torrent_size = result('td')[5].text`, `size = convert_size(...) or -1`
  rabort (r.tds.get? 5) fun c5 =>
  -- `if not all([title, download_url]): continue`
  if ¬(a1.text ≠ "" ∧ env.urljoin u href ≠ "") then .skip
  else if seeders < cfg.minseed ∨ leechers < cfg.minleech then .skip
  else
    .ok ⟨a1.text, env.urljoin u href,
      pyOr (env.convertSize c5.text) (-1), seeders, leechers, ""⟩

theorem rskip_eq_ok {α : Type} {o : Option α} {k : α → RowStep} {it : Item} :
    rskip o k = .ok it ↔ ∃ a, o = some a ∧ k a = .ok it := by
  cases o <;> simp [rskip]

theorem rabort_eq_ok {α : Type} {o : Option α} {k : α → RowStep} {it : Item} :
    rabort o k = .ok it ↔ ∃ a, o = some a ∧ k a = .ok it := by
  cases o <;> simp [rabort]

/-- The row loop: a `pageAbort` keeps the items already appended and
abandons the rest of the page. -/
def rowsGo (cfg : Config) (env : Env) (u : String) : List TRow → List Item
  | [] => []
  | r :: rest =>
    match parseRow cfg env u r with
    | .ok it => it :: rowsGo cfg env u rest
    | .skip => rowsGo cfg env u rest
    | .pageAbort => []

/-- One `(mode, search_string)` fetch and parse (lines 128-180). -/
def pairItems (cfg : Config) (env : Env) (mode s : String) : List Item :=
  olist (env.searchPage (searchUrl cfg env mode s)) fun page =>
  -- `if not html: continue`, `if html.find(text='No Torrents Found!'): continue`
  if page.falsyHtml then []
  else if page.noTorrentsFound then []
  else
    -- `torrents = torrent_table('tr') if torrent_table else []`
    olist page.torrentTable fun torrents =>
    -- `if not torrents or len(torrents) < 2: continue`
    if torrents.length < 2 then []
    else
      match torrents with
      | [] => []
      | _header :: rest => rowsGo cfg env (searchUrl cfg env mode s) rest

/-- Items one mode accumulates across its search strings, in discovery
order. -/
def modeItems (cfg : Config) (env : Env) (ms : String × List String) : List Item :=
  (ms.2.map (fun s => pairItems cfg env ms.1 s)).flatten

/-- The search-string loop (lines 114-180) with the `return results` taken
when a custom URL fails validation; the count is the number of search
fetches issued. -/
def stringsGo (cfg : Config) (env : Env) (mode : String) :
    List String → List Item → Option (List Item) × Nat
  | [], items => (some items, 0)
  | s :: rest, items =>
    if cfg.custom_url ≠ "" ∧ ¬ env.urlValid cfg.custom_url then (none, 0)
    else
      match stringsGo cfg env mode rest (items ++ pairItems cfg env mode s) with
      | (r, n) => (r, 1 + n)

/-- The mode loop (lines 111-185). -/
def modesGo (cfg : Config) (env : Env) : List (String × List String) →
    List Item → List Item × Nat
  | [], results => (results, 0)
  | (mode, strs) :: rest, results =>
    match stringsGo cfg env mode strs [] with
    | (none, n) => (results, n)
    | (some items, n) =>
      match modesGo cfg env rest (results ++ pySortSeeders items) with
      | (r, m) => (r, n + m)

/-- `IPTorrentsProvider.search`. -/
def search (cfg : Config) (session : List (String × String)) (env : Env)
    (searchStrings : List (String × List String)) :
    Except PyErr (List Item) × Nat :=
  match login cfg session env with
  | (.error e, n) => (.error e, n)
  | (.ok false, n) => (.ok [], n)
  | (.ok true, n) =>
    match modesGo cfg env searchStrings [] with
    | (r, m) => (.ok r, n + m)

theorem ipt_parseRow_inv {cfg : Config} {env : Env} {u : String} {r : TRow}
    {it : Item} (h : parseRow cfg env u r = .ok it) :
    it.title ≠ "" ∧ it.link ≠ "" ∧ cfg.minseed ≤ it.seeders ∧
      cfg.minleech ≤ it.leechers ∧
      (it.size = -1 ∨ (it.size ≠ 0 ∧ ∃ t, env.convertSize t = some it.size)) := by
  rw [parseRow] at h
  simp only [rskip_eq_ok, rabort_eq_ok] at h
  obtain ⟨c1, h1, a1, h2, c3, h3, a3, h4, href, h5, st, h6, seeders, h7,
    lt, h8, leechers, h9, c5, h10, h⟩ := h
  by_cases hne : a1.text ≠ "" ∧ env.urljoin u href ≠ ""
  swap
  · rw [if_pos hne] at h; simp at h
  rw [if_neg (not_not_intro hne)] at h
  by_cases hmin : seeders < cfg.minseed ∨ leechers < cfg.minleech
  · rw [if_pos hmin] at h; simp at h
  rw [if_neg hmin] at h
  push_neg at hmin
  injection h with h11
  subst h11
  refine ⟨hne.1, hne.2, hmin.1, hmin.2, ?_⟩
  rcases hcs : env.convertSize c5.text with _ | v
  · left; simp [pyOr, hcs]
  · by_cases hv : v = 0
    · left; simp [pyOr, hcs, hv]
    · right
      refine ⟨by simp [pyOr, hcs, hv], c5.text, by simp [pyOr, hcs, hv]⟩

theorem mem_rowsGo {cfg : Config} {env : Env} {u : String} {rows : List TRow}
    {it : Item} (h : it ∈ rowsGo cfg env u rows) :
    ∃ r, parseRow cfg env u r = .ok it := by
  induction rows with
  | nil => simp [rowsGo] at h
  | cons r rest ih =>
    rw [rowsGo] at h
    rcases hr : parseRow cfg env u r with it2 | _ | _ <;> simp only [hr] at h
    · rcases List.mem_cons.mp h with rfl | h2
      · exact ⟨r, hr⟩
      · exact ih h2
    · exact ih h
    · simp at h

theorem ipt_mem_pairItems {cfg : Config} {env : Env} {mode s : String} {it : Item}
    (h : it ∈ pairItems cfg env mode s) :
    ∃ u r, parseRow cfg env u r = .ok it := by
  rw [pairItems, mem_olist] at h
  obtain ⟨page, _, h⟩ := h
  by_cases h1 : page.falsyHtml
  · rw [if_pos h1] at h; simp at h
  rw [if_neg h1] at h
  by_cases h2 : page.noTorrentsFound
  · rw [if_pos h2] at h; simp at h
  rw [if_neg h2, mem_olist] at h
  obtain ⟨torrents, _, h⟩ := h
  by_cases hlen : torrents.length < 2
  · rw [if_pos hlen] at h; simp at h
  rw [if_neg hlen] at h
  rcases torrents with _ | ⟨hd0, rest⟩
  · simp at h
  simp only at h
  obtain ⟨r, hr⟩ := mem_rowsGo h
  exact ⟨searchUrl cfg env mode s, r, hr⟩

theorem ipt_mem_stringsGo {cfg : Config} {env : Env} {mode : String}
    {strs : List String} {acc items : List Item} {n : Nat} {it : Item}
    (h : stringsGo cfg env mode strs acc = (some items, n)) (hit : it ∈ items) :
    it ∈ acc ∨ ∃ u r, parseRow cfg env u r = .ok it := by
  induction strs generalizing acc n with
  | nil =>
    rw [stringsGo] at h
    simp only [Prod.mk.injEq] at h
    obtain ⟨h1, _⟩ := h
    injection h1 with h1
    subst h1
    exact Or.inl hit
  | cons s rest ih =>
    rw [stringsGo] at h
    by_cases hc : cfg.custom_url ≠ "" ∧ ¬ env.urlValid cfg.custom_url
    · rw [if_pos hc] at h; simp at h
    rw [if_neg hc] at h
    rcases hrec : stringsGo cfg env mode rest (acc ++ pairItems cfg env mode s)
      with ⟨r, m⟩
    simp only [hrec] at h
    simp only [Prod.mk.injEq] at h
    obtain ⟨h1, _⟩ := h
    subst h1
    rcases ih hrec with hacc | hp
    · rcases List.mem_append.mp hacc with ha | hb
      · exact Or.inl ha
      · exact Or.inr (ipt_mem_pairItems hb)
    · exact Or.inr hp

theorem ipt_mem_modesGo {cfg : Config} {env : Env}
    {ss : List (String × List String)} {results : List Item} {it : Item}
    (h : it ∈ (modesGo cfg env ss results).1) :
    it ∈ results ∨ ∃ u r, parseRow cfg env u r = .ok it := by
  induction ss generalizing results with
  | nil => exact Or.inl h
  | cons ms rest ih =>
    obtain ⟨mode, strs⟩ := ms
    rw [modesGo] at h
    rcases hsg : stringsGo cfg env mode strs [] with ⟨r, n⟩
    simp only [hsg] at h
    rcases r with _ | items
    · exact Or.inl h
    · rcases hm : modesGo cfg env rest (results ++ pySortSeeders items)
        with ⟨r2, m2⟩
      simp only [hm] at h
      have h2 : it ∈ (modesGo cfg env rest (results ++ pySortSeeders items)).1 := by
        rw [hm]; exact h
      rcases ih h2 with hres | hp
      · rcases List.mem_append.mp hres with ha | hb
        · exact Or.inl ha
        · rw [mem_pySortSeeders] at hb
          rcases ipt_mem_stringsGo hsg hb with h3 | h3
          · simp at h3
          · exact Or.inr h3
      · exact Or.inr hp

/-- Every item in a non-raising `IPTorrentsProvider.search` run came out
of a successful row parse. -/
theorem ipt_mem_search_ok {cfg : Config} {session : List (String × String)}
    {env : Env} {ss : List (String × List String)} {l : List Item} {it : Item}
    (hok : (search cfg session env ss).1 = .ok l) (hit : it ∈ l) :
    ∃ u r, parseRow cfg env u r = .ok it := by
  rw [search] at hok
  rcases hl : login cfg session env with ⟨lg, n⟩
  rw [hl] at hok
  rcases lg with e | b
  · simp at hok
  rcases b with _ | _
  · simp only at hok
    injection hok with hok
    subst hok
    simp at hit
  · rcases hm : modesGo cfg env ss [] with ⟨r, m⟩
    simp only [hm] at hok
    injection hok with hok
    subst hok
    have h2 : it ∈ (modesGo cfg env ss []).1 := by rw [hm]; exact hit
    rcases ipt_mem_modesGo h2 with h1 | h1
    · simp at h1
    · exact h1

/-- With no custom URL (or a valid one) the string loop issues one fetch
per search string and contributes the discovery-ordered concatenation. -/
theorem stringsGo_some {cfg : Config} {env : Env} {mode : String}
    (hcu : cfg.custom_url = "" ∨ env.urlValid cfg.custom_url = true) :
    ∀ strs acc, stringsGo cfg env mode strs acc =
      (some (acc ++ (strs.map (fun s => pairItems cfg env mode s)).flatten),
        strs.length) := by
  have hcond : ¬(cfg.custom_url ≠ "" ∧ ¬ env.urlValid cfg.custom_url) := by
    rcases hcu with h | h
    · intro hc; exact hc.1 h
    · intro hc; exact hc.2 h
  intro strs
  induction strs with
  | nil => intro acc; simp [stringsGo]
  | cons s rest ih =>
    intro acc
    rw [stringsGo, if_neg hcond]
    simp only [ih]
    simp [List.append_assoc, Nat.add_comm]

theorem modesGo_eq {cfg : Config} {env : Env}
    (hcu : cfg.custom_url = "" ∨ env.urlValid cfg.custom_url = true) :
    ∀ (ss : List (String × List String)) (results : List Item),
      modesGo cfg env ss results =
        (results ++
          (ss.map (fun ms => pySortSeeders (modeItems cfg env ms))).flatten,
          (ss.map (fun ms => ms.2.length)).sum) := by
  intro ss
  induction ss with
  | nil => intro results; simp [modesGo]
  | cons ms rest ih =>
    intro results
    obtain ⟨mode, strs⟩ := ms
    rw [modesGo]
    simp only [stringsGo_some hcu strs [], List.nil_append]
    rw [ih]
    simp [modeItems, List.append_assoc]

/-- When login succeeds and the custom URL is absent or valid, the search
output is the concatenation of the per-mode seeder-sorted blocks. -/
theorem search_structure {cfg : Config} {session : List (String × String)}
    {env : Env} {n : Nat} {ss : List (String × List String)}
    (hl : login cfg session env = (.ok true, n))
    (hcu : cfg.custom_url = "" ∨ env.urlValid cfg.custom_url = true) :
    (search cfg session env ss).1 =
      .ok ((ss.map (fun ms => pySortSeeders (modeItems cfg env ms))).flatten) := by
  rw [search]
  simp only [hl]
  simp only [modesGo_eq hcu ss [], List.nil_append]

end IPTorrentsProvider

/-! ## Concrete fixtures

Small transports and configurations used to instantiate the theorems on
closed inputs. -/

def abCfg : ABNormalProvider.Config := ⟨"u", "p", 1, 0⟩

def abCellT (t : String) : ABNormalProvider.Cell := ⟨t, none⟩

def abHeader : ABNormalProvider.Row :=
  ⟨[abCellT "Catégorie", abCellT "Release", abCellT "Date", abCellT "DL",
    abCellT "Size", abCellT "C", abCellT "S", abCellT "L"]⟩

def abRow (title href size s l : String) : ABNormalProvider.Row :=
  ⟨[abCellT "TV", abCellT title, abCellT "today", ⟨"", some href⟩,
    abCellT size, abCellT "0", abCellT s, abCellT l]⟩

def abPage : ABNormalProvider.Page :=
  ⟨some [abHeader, abRow "B" "/d2" "1 GO" "5" "2", abRow "A" "/d1" "2 GO" "7" "0"]⟩

def abEnv : ABNormalProvider.Env where
  loginBody := some "index torrents.php page"
  searchPage := fun _ _ => some abPage
  convertSize := fun t =>
    if t = "1 GO" then some 1073741824
    else if t = "2 GO" then some 2147483648 else none
  urljoin := fun href => "https://abnormal.ws" ++ href

def abZeroEnv : ABNormalProvider.Env :=
  { abEnv with convertSize := fun _ => some 0 }

def abFailEnv : ABNormalProvider.Env :=
  { abEnv with loginBody := none }

def abFailSearchEnv : ABNormalProvider.Env :=
  { abEnv with searchPage := fun _ _ => none }

def abItemA : Item := ⟨"A", "https://abnormal.ws/d1", 2147483648, 7, 0, ""⟩

def abItemB : Item := ⟨"B", "https://abnormal.ws/d2", 1073741824, 5, 2, ""⟩

def abZeroItemA : Item := ⟨"A", "https://abnormal.ws/d1", -1, 7, 0, ""⟩

def iptCfg : IPTorrentsProvider.Config := ⟨"u", "p", 1, 0, "", "", false⟩

def iptSession : List (String × String) := [("uid", "1"), ("pass", "2")]

def iptRow (title href st lt size : String) : IPTorrentsProvider.TRow :=
  ⟨[⟨none, ""⟩, ⟨some ⟨title, none⟩, ""⟩, ⟨none, ""⟩, ⟨some ⟨"", some href⟩, ""⟩,
    ⟨none, ""⟩, ⟨none, size⟩], some st, some lt⟩

def iptPage : IPTorrentsProvider.TPage :=
  ⟨false, false,
    some [⟨[], none, none⟩, iptRow "T1" "/dl1" "4" "2" "1 GB",
      iptRow "T2" "/dl2" "9" "0" "2 GB"]⟩

def iptEnv : IPTorrentsProvider.Env where
  urlValid := fun _ => false
  addCookiesSuccess := true
  indexBody := none
  loginBody := none
  searchPage := fun _ => some iptPage
  convertSize := fun t =>
    if t = "1 GB" then some 1073741824
    else if t = "2 GB" then some 2147483648 else none
  urljoin := fun _ href => "https://iptorrents.eu" ++ href

def iptZeroEnv : IPTorrentsProvider.Env :=
  { iptEnv with convertSize := fun _ => some 0 }

def iptItem1 : Item := ⟨"T1", "https://iptorrents.eu/dl1", 1073741824, 4, 2, ""⟩

def iptItem2 : Item := ⟨"T2", "https://iptorrents.eu/dl2", 2147483648, 9, 0, ""⟩

def iptZeroItem1 : Item := ⟨"T1", "https://iptorrents.eu/dl1", -1, 4, 2, ""⟩

def iptZeroItem2 : Item := ⟨"T2", "https://iptorrents.eu/dl2", -1, 9, 0, ""⟩

def ncCfg : NcoreProvider.Config := ⟨"u", "p", 1, 0⟩

def ncItem1 : NcoreProvider.NItem :=
  ⟨some "N1", some "http://x/d/1", some 10, some 2, some 104857600⟩

def ncItem2 : NcoreProvider.NItem :=
  ⟨some "N2", some "http://x/d/2", some 3, some 5, none⟩

def ncItem3 : NcoreProvider.NItem :=
  ⟨some "N3", some "http://x/d/3", some 0, some 9, some 104857600⟩

def ncEnv : NcoreProvider.Env where
  loginBody := some "welcome"
  fetch := fun _ => some (.jsonDict (some 2) (some [ncItem1, ncItem2, ncItem3]))
  convertSizeNum := fun v => if v = 104857600 then some 104857600 else none

def ncZeroEnv : NcoreProvider.Env :=
  { ncEnv with convertSizeNum := fun _ => some 0 }

def ncNoneEnv : NcoreProvider.Env :=
  { ncEnv with fetch := fun _ => none }

def ncInvalidEnv : NcoreProvider.Env :=
  { ncEnv with fetch := fun _ => some .invalidJson }

def ncFailEnv : NcoreProvider.Env :=
  { ncEnv with loginBody := none }

def ncOut1 : Item := ⟨"N1", "http://x/d/1", 104857600, 10, 2, ""⟩

def ncOut2 : Item := ⟨"N2", "http://x/d/2", -1, 3, 5, ""⟩

def ncZeroOut1 : Item := ⟨"N1", "http://x/d/1", -1, 10, 2, ""⟩

def ncZeroOut2 : Item := ⟨"N2", "http://x/d/2", -1, 3, 5, ""⟩

def nbCfg : NorbitsProvider.Config := ⟨"user", "pk", 1, 0⟩

def nbItem1 : NorbitsProvider.NbItem :=
  ⟨some "R1", some "42", some 6, some 1, some "deadbeef", some 1000⟩

def nbResp : NorbitsProvider.Response := ⟨some 0, none, some ⟨some [nbItem1]⟩⟩

def nbUrlencode (i pk : String) : String := "id=" ++ i ++ "&passkey=" ++ pk

def nbEnv : NorbitsProvider.Env where
  fetch := fun _ => some nbResp
  convertSizeNum := fun v => if v = 1000 then some 1000 else none
  urlencode := nbUrlencode

/-- A truthy dict response with `status == 3` (the invalid-credentials
marker) and no `'data'` mapping. -/
def nbBadEnv : NorbitsProvider.Env :=
  { nbEnv with fetch := fun _ => some ⟨some 1, some "bad", none⟩ }

def nbBad2Env : NorbitsProvider.Env :=
  { nbEnv with fetch := fun _ => some ⟨some 7, none, none⟩ }

/-- First fetch falsy, second fetch fine. -/
def nbCutEnv : NorbitsProvider.Env :=
  { nbEnv with fetch := fun s => if s = "a" then none else some nbResp }

def nbStatus3Env : NorbitsProvider.Env :=
  { nbEnv with fetch := fun _ => some ⟨some 3, some "Invalid creds", some ⟨some [nbItem1]⟩⟩ }

def nbOut1 : Item :=
  ⟨"R1", "https://norbits.net/download.php?id=42&passkey=pk", 1000, 6, 1, "deadbeef"⟩

/-! ## Claims -/

/-- C1: for every provider (ABNormal, IPTorrents, Ncore, Norbits) and
every input search-strings mapping, every record in the list returned by
`search` has a non-empty title and a non-empty link: a candidate row whose
title or download URL is empty is dropped during parsing and never appears
in the output. -/
theorem claim_C1 :
    (∀ cfg session env ss it,
      it ∈ (ABNormalProvider.search cfg session env ss).1 →
      it.title ≠ "" ∧ it.link ≠ "") ∧
    (∀ cfg session env ss l it,
      (IPTorrentsProvider.search cfg session env ss).1 = .ok l → it ∈ l →
      it.title ≠ "" ∧ it.link ≠ "") ∧
    (∀ cfg session env ss l it,
      (NcoreProvider.search cfg session env ss).1 = .ok l → it ∈ l →
      it.title ≠ "" ∧ it.link ≠ "") ∧
    (∀ cfg env ss l it,
      NorbitsProvider.search cfg env ss = .ok l → it ∈ l →
      it.title ≠ "" ∧ it.link ≠ "") := by
  refine ⟨?_, ?_, ?_, ?_⟩
  · intro cfg session env ss it h
    obtain ⟨labels, r, hr⟩ := ABNormalProvider.mem_search h
    have hi := ABNormalProvider.ab_parseRow_inv hr
    exact ⟨hi.1, hi.2.1⟩
  · intro cfg session env ss l it hok hit
    obtain ⟨u, r, hr⟩ := IPTorrentsProvider.ipt_mem_search_ok hok hit
    have hi := IPTorrentsProvider.ipt_parseRow_inv hr
    exact ⟨hi.1, hi.2.1⟩
  · intro cfg session env ss l it hok hit
    obtain ⟨x, hx⟩ := NcoreProvider.nc_mem_search_ok hok hit
    have hi := NcoreProvider.nc_parseItem_inv hx
    exact ⟨hi.1, hi.2.1⟩
  · intro cfg env ss l it hok hit
    obtain ⟨x, hx⟩ := NorbitsProvider.nb_mem_search_ok hok hit
    have hi := NorbitsProvider.nb_parseItem_inv hx
    exact ⟨hi.1, hi.2.1⟩

/-- C1 witness: the four provider branches instantiated on the concrete
fixtures. -/
theorem claim_C1_witness :
    (abItemA.title ≠ "" ∧ abItemA.link ≠ "") ∧
    (iptItem2.title ≠ "" ∧ iptItem2.link ≠ "") ∧
    (ncOut1.title ≠ "" ∧ ncOut1.link ≠ "") ∧
    (nbOut1.title ≠ "" ∧ nbOut1.link ≠ "") :=
  ⟨claim_C1.1 abCfg [] abEnv [("Episode", ["test"])] abItemA (by decide),
   claim_C1.2.1 iptCfg iptSession iptEnv [("Episode", ["q"])]
     [iptItem2, iptItem1] iptItem2 (by decide) (by decide),
   claim_C1.2.2.1 ncCfg [] ncEnv [("Episode", ["q"])] [ncOut1, ncOut2] ncOut1
     (by decide) (by decide),
   claim_C1.2.2.2 nbCfg nbEnv [("Episode", ["q"])] [nbOut1] nbOut1
     (by decide) (by decide)⟩

/-- C2: for every provider and every input, every record in the returned
list satisfies `seeders >= minseed` and `leechers >= minleech` for the
configuration active at filter time; a failing row is dropped, never
mutated or flagged. -/
theorem claim_C2 :
    (∀ cfg session env ss it,
      it ∈ (ABNormalProvider.search cfg session env ss).1 →
      cfg.minseed ≤ it.seeders ∧ cfg.minleech ≤ it.leechers) ∧
    (∀ cfg session env ss l it,
      (IPTorrentsProvider.search cfg session env ss).1 = .ok l → it ∈ l →
      cfg.minseed ≤ it.seeders ∧ cfg.minleech ≤ it.leechers) ∧
    (∀ cfg session env ss l it,
      (NcoreProvider.search cfg session env ss).1 = .ok l → it ∈ l →
      cfg.minseed ≤ it.seeders ∧ cfg.minleech ≤ it.leechers) ∧
    (∀ cfg env ss l it,
      NorbitsProvider.search cfg env ss = .ok l → it ∈ l →
      cfg.minseed ≤ it.seeders ∧ cfg.minleech ≤ it.leechers) := by
  refine ⟨?_, ?_, ?_, ?_⟩
  · intro cfg session env ss it h
    obtain ⟨labels, r, hr⟩ := ABNormalProvider.mem_search h
    have hi := ABNormalProvider.ab_parseRow_inv hr
    exact ⟨hi.2.2.1, hi.2.2.2.1⟩
  · intro cfg session env ss l it hok hit
    obtain ⟨u, r, hr⟩ := IPTorrentsProvider.ipt_mem_search_ok hok hit
    have hi := IPTorrentsProvider.ipt_parseRow_inv hr
    exact ⟨hi.2.2.1, hi.2.2.2.1⟩
  · intro cfg session env ss l it hok hit
    obtain ⟨x, hx⟩ := NcoreProvider.nc_mem_search_ok hok hit
    have hi := NcoreProvider.nc_parseItem_inv hx
    exact ⟨hi.2.2.1, hi.2.2.2.1⟩
  · intro cfg env ss l it hok hit
    obtain ⟨x, hx⟩ := NorbitsProvider.nb_mem_search_ok hok hit
    have hi := NorbitsProvider.nb_parseItem_inv hx
    exact ⟨hi.2.2.1, hi.2.2.2⟩

/-- C2 witness: the four provider branches instantiated on the concrete
fixtures. -/
theorem claim_C2_witness :
    (abCfg.minseed ≤ abItemB.seeders ∧ abCfg.minleech ≤ abItemB.leechers) ∧
    (iptCfg.minseed ≤ iptItem1.seeders ∧ iptCfg.minleech ≤ iptItem1.leechers) ∧
    (ncCfg.minseed ≤ ncOut2.seeders ∧ ncCfg.minleech ≤ ncOut2.leechers) ∧
    (nbCfg.minseed ≤ nbOut1.seeders ∧ nbCfg.minleech ≤ nbOut1.leechers) :=
  ⟨claim_C2.1 abCfg [] abEnv [("Episode", ["test"])] abItemB (by decide),
   claim_C2.2.1 iptCfg iptSession iptEnv [("Episode", ["q"])]
     [iptItem2, iptItem1] iptItem1 (by decide) (by decide),
   claim_C2.2.2.1 ncCfg [] ncEnv [("Episode", ["q"])] [ncOut1, ncOut2] ncOut2
     (by decide) (by decide),
   claim_C2.2.2.2 nbCfg nbEnv [("Episode", ["q"])] [nbOut1] nbOut1
     (by decide) (by decide)⟩

/-- C3: within the contribution of any single search mode, records are
sorted by seeders in descending order, and the sort is stable: records
with equal seeders keep the relative order in which they were discovered
across that mode's search strings. The per-mode sort `pySortSeeders` is
descending (first conjunct) and stable (second conjunct: the sublist at
any fixed seeder count is unchanged), and each provider's result list is
the concatenation of the per-mode sorted blocks over the discovery-ordered
per-mode item lists (remaining conjuncts; Ncore on non-raising runs after
a successful login, IPTorrents under a valid/absent custom URL, Norbits
under credentials and usable fetches). -/
theorem claim_C3 :
    (∀ l, SortedBySeedersDesc (pySortSeeders l)) ∧
    (∀ l k, (pySortSeeders l).filter (fun a => decide (a.seeders = k)) =
      l.filter (fun a => decide (a.seeders = k))) ∧
    (∀ cfg session env ss,
      (ABNormalProvider.search cfg session env ss).1 =
        if (ABNormalProvider.login cfg session env).1 then
          (ss.map (fun ms =>
            pySortSeeders (ABNormalProvider.modeItems cfg env ms))).flatten
        else []) ∧
    (∀ cfg session env n ss,
      IPTorrentsProvider.login cfg session env = (.ok true, n) →
      cfg.custom_url = "" ∨ env.urlValid cfg.custom_url = true →
      (IPTorrentsProvider.search cfg session env ss).1 =
        .ok ((ss.map (fun ms =>
          pySortSeeders (IPTorrentsProvider.modeItems cfg env ms))).flatten)) ∧
    (∀ cfg session env ss l,
      (NcoreProvider.login cfg session env).1 = true →
      (NcoreProvider.search cfg session env ss).1 = .ok l →
      l = (ss.map (fun ms =>
        pySortSeeders (NcoreProvider.modeItems cfg env ms.2))).flatten) ∧
    (∀ cfg env ss,
      cfg.username ≠ "" → cfg.passkey ≠ "" →
      (∀ s, ∃ r d, env.fetch s = some r ∧
        NorbitsProvider.Response.data r = some d) →
      NorbitsProvider.search cfg env ss =
        .ok ((ss.map (fun ms =>
          pySortSeeders (NorbitsProvider.modeItems cfg env ms.2))).flatten)) := by
  refine ⟨sorted_pySortSeeders, filter_pySortSeeders, ?_, ?_, ?_, ?_⟩
  · intro cfg session env ss
    exact ABNormalProvider.search_eq_join cfg session env ss
  · intro cfg session env n ss hl hcu
    exact IPTorrentsProvider.search_structure hl hcu
  · intro cfg session env ss l hl hok
    exact NcoreProvider.search_ok_structure hl hok
  · intro cfg env ss hu hp hf
    rw [NorbitsProvider.search]
    rw [NorbitsProvider.modesGo_done hu hp hf ss []]
    simp [NorbitsProvider.modeItems]

/-- C3 witness: the six conjuncts instantiated on concrete lists and the
concrete fixtures. -/
theorem claim_C3_witness :
    SortedBySeedersDesc (pySortSeeders [abItemB, abItemA]) ∧
    ((pySortSeeders [abItemB, abItemA]).filter
        (fun a => decide (a.seeders = 5)) =
      [abItemB, abItemA].filter (fun a => decide (a.seeders = 5))) ∧
    ((ABNormalProvider.search abCfg [] abEnv [("Episode", ["test"])]).1 =
      if (ABNormalProvider.login abCfg [] abEnv).1 then
        ([("Episode", ["test"])].map (fun ms =>
          pySortSeeders (ABNormalProvider.modeItems abCfg abEnv ms))).flatten
      else []) ∧
    ((IPTorrentsProvider.search iptCfg iptSession iptEnv
        [("Episode", ["q"])]).1 =
      .ok (([("Episode", ["q"])].map (fun ms =>
        pySortSeeders (IPTorrentsProvider.modeItems iptCfg iptEnv ms))).flatten)) ∧
    ([ncOut1, ncOut2] = ([("Episode", ["q"])].map (fun ms =>
      pySortSeeders (NcoreProvider.modeItems ncCfg ncEnv ms.2))).flatten) ∧
    (NorbitsProvider.search nbCfg nbEnv [("Episode", ["q"])] =
      .ok (([("Episode", ["q"])].map (fun ms =>
        pySortSeeders (NorbitsProvider.modeItems nbCfg nbEnv ms.2))).flatten)) :=
  ⟨claim_C3.1 [abItemB, abItemA],
   claim_C3.2.1 [abItemB, abItemA] 5,
   claim_C3.2.2.1 abCfg [] abEnv [("Episode", ["test"])],
   claim_C3.2.2.2.1 iptCfg iptSession iptEnv 0 [("Episode", ["q"])]
     (by decide) (Or.inl rfl),
   claim_C3.2.2.2.2.1 ncCfg [] ncEnv [("Episode", ["q"])] [ncOut1, ncOut2]
     (by decide) (by decide),
   claim_C3.2.2.2.2.2 nbCfg nbEnv [("Episode", ["q"])] (by decide) (by decide)
     (fun _ => ⟨nbResp, ⟨some [nbItem1]⟩, rfl, rfl⟩)⟩

/-- C4 counterexample: for Norbits, a falsy fetch does NOT merely
contribute zero records for that pair — it aborts the whole sweep. With
the first fetch falsy and the second fetch carrying a valid record, the
claim predicts that record in the output, but `search` returns the empty
list; the same transport queried on the second string alone produces the
record. -/
theorem claim_C4_counterexample :
    NorbitsProvider.search nbCfg nbCutEnv [("Episode", ["a", "b"])] = .ok [] ∧
    NorbitsProvider.search nbCfg nbCutEnv [("Episode", ["b"])] = .ok [nbOut1] := by
  constructor <;> decide

/-- C4 (amended): ABNormal treats a falsy body as "no results" for that
pair and the sweep continues (the pair contributes `[]` inside the same
join-of-modes output). Ncore treats a body that fails JSON parsing as "no
results" for the pair, but when the transport returns nothing,
`json.loads(None)` raises a `TypeError` that `except ValueError` does not
catch, so `search` raises. Norbits reacts to a falsy response by
returning immediately with the results of the completed modes, dropping
the current mode's pending items and skipping all remaining pairs; at the
first pair this yields the empty list. -/
theorem claim_C4 :
    (∀ cfg env mode s,
      env.searchPage (if mode = "RSS" then "Time" else "Seeders")
        (ABNormalProvider.stripParens s) = none →
      ABNormalProvider.pairItems cfg env mode s = []) ∧
    (∀ cfg session env ss,
      (ABNormalProvider.search cfg session env ss).1 =
        if (ABNormalProvider.login cfg session env).1 then
          (ss.map (fun ms =>
            pySortSeeders (ABNormalProvider.modeItems cfg env ms))).flatten
        else []) ∧
    (∀ cfg env s, env.fetch s = some NcoreProvider.Body.invalidJson →
      NcoreProvider.pairItems cfg env s = .ok []) ∧
    (∀ cfg session env m s rest more,
      (NcoreProvider.login cfg session env).1 = true → env.fetch s = none →
      (NcoreProvider.search cfg session env ((m, s :: rest) :: more)).1 =
        .error .typeError) ∧
    (∀ cfg env m s rest more,
      cfg.username ≠ "" → cfg.passkey ≠ "" → env.fetch s = none →
      NorbitsProvider.search cfg env ((m, s :: rest) :: more) = .ok []) := by
  refine ⟨?_, ?_, ?_, ?_, ?_⟩
  · intro cfg env mode s h
    rw [ABNormalProvider.pairItems]
    simp [h, olist]
  · intro cfg session env ss
    exact ABNormalProvider.search_eq_join cfg session env ss
  · intro cfg env s h
    rw [NcoreProvider.pairItems]
    simp [h, elist]
  · intro cfg session env m s rest more hl hf
    exact NcoreProvider.search_typeError hl hf
  · intro cfg env m s rest more hu hp hf
    exact NorbitsProvider.search_earlyReturn hu hp hf

/-- C4 witness: the amended behaviours instantiated on the concrete
fixtures. -/
theorem claim_C4_witness :
    ABNormalProvider.pairItems abCfg abFailSearchEnv "Episode" "test" = [] ∧
    ((ABNormalProvider.search abCfg [] abEnv [("Episode", ["test"])]).1 =
      if (ABNormalProvider.login abCfg [] abEnv).1 then
        ([("Episode", ["test"])].map (fun ms =>
          pySortSeeders (ABNormalProvider.modeItems abCfg abEnv ms))).flatten
      else []) ∧
    NcoreProvider.pairItems ncCfg ncInvalidEnv "q" = .ok [] ∧
    ((NcoreProvider.search ncCfg [] ncNoneEnv [("Episode", ["q"])]).1 =
      .error .typeError) ∧
    NorbitsProvider.search nbCfg nbCutEnv [("Episode", ["a"])] = .ok [] :=
  ⟨claim_C4.1 abCfg abFailSearchEnv "Episode" "test" rfl,
   claim_C4.2.1 abCfg [] abEnv [("Episode", ["test"])],
   claim_C4.2.2.1 ncCfg ncInvalidEnv "q" rfl,
   claim_C4.2.2.2.1 ncCfg [] ncNoneEnv "Episode" "q" [] [] (by decide) rfl,
   claim_C4.2.2.2.2 nbCfg nbCutEnv "Episode" "a" [] [] (by decide) (by decide)
     (by decide)⟩

/-- C5 counterexample: Ncore's `login` has no session fast path. With a
session store that already holds a cookie (proof of authentication in the
sense the other providers use), `login` still issues one network call
(and returns true), not zero. -/
theorem claim_C5_counterexample :
    (NcoreProvider.login ncCfg [("PHPSESSID", "abc")] ncEnv).2 = 1 ∧
    anyCookieTruthy [("PHPSESSID", "abc")] = true := by
  constructor <;> decide

/-- C5 (amended): ABNormal returns true with zero network calls whenever
any session cookie has a truthy value; IPTorrents returns true with zero
network calls whenever the `uid` and `pass` cookies are both truthy;
Ncore's `login` always issues exactly one network call — it never
consults the session store. -/
theorem claim_C5 :
    (∀ cfg session env, anyCookieTruthy session = true →
      ABNormalProvider.login cfg session env = (true, 0)) ∧
    (∀ cfg session env,
      (List.lookup "uid" session).getD "" ≠ "" →
      (List.lookup "pass" session).getD "" ≠ "" →
      IPTorrentsProvider.login cfg session env = (.ok true, 0)) ∧
    (∀ cfg session env, (NcoreProvider.login cfg session env).2 = 1) := by
  refine ⟨?_, ?_, NcoreProvider.login_snd⟩
  · intro cfg session env h
    rw [ABNormalProvider.login, if_pos h]
  · intro cfg session env h1 h2
    rw [IPTorrentsProvider.login, if_pos ⟨h1, h2⟩]

/-- C5 witness: the amended behaviours instantiated on concrete sessions. -/
theorem claim_C5_witness :
    ABNormalProvider.login abCfg [("c", "v")] abEnv = (true, 0) ∧
    IPTorrentsProvider.login iptCfg iptSession iptEnv = (.ok true, 0) ∧
    (NcoreProvider.login ncCfg [] ncEnv).2 = 1 :=
  ⟨claim_C5.1 abCfg [("c", "v")] abEnv (by decide),
   claim_C5.2.1 iptCfg iptSession iptEnv (by decide) (by decide),
   claim_C5.2.2 ncCfg [] ncEnv⟩

/-- C6: the claim is right and the code is wrong. Row-level recovery
exists (bare per-row `except` in ABNormal/Ncore), but a whole body of the
wrong shape does not yield zero rows: in Norbits, a truthy JSON mapping
without a usable `'data'` entry makes line 92 log "Resulting JSON from
provider is not correct, not parsing it" and then line 94 parses it
anyway, calling `.get` on the `''` default — an uncaught
`AttributeError` escapes `search` instead of the fetch contributing zero
rows. This theorem evaluates the embedded `search` at that failing
input. -/
theorem claim_C6 :
    NorbitsProvider.search nbCfg nbBadEnv [("Episode", ["x"])] =
      .error .attributeError := by
  decide

/-- C7 counterexample: the missing-credential `AuthException` is not the
only error class that escapes `NorbitsProvider.search`. With credentials
configured, a truthy response without a `'data'` mapping raises an
`AttributeError` to the caller, and that error is not an
`AuthException`. -/
theorem claim_C7_counterexample :
    NorbitsProvider.search nbCfg nbBad2Env [("Episode", ["y"])] =
      .error .attributeError ∧
    PyErr.attributeError ≠ PyErr.authException := by
  constructor <;> decide

/-- C7 (amended): calling Norbits `search` with at least one
`(mode, search_string)` pair while the configured username or passkey is
missing raises `AuthException` to the caller rather than returning a
list; it is the only configuration-triggered error, but not the only
escaping error class — a truthy response without a usable `'data'`
mapping escapes with `AttributeError`. -/
theorem claim_C7 :
    (∀ cfg env ss, (cfg.username = "" ∨ cfg.passkey = "") →
      (∃ p ∈ ss, p.2 ≠ ([] : List String)) →
      NorbitsProvider.search cfg env ss = .error .authException) ∧
    (∀ cfg env m s rest more r,
      cfg.username ≠ "" → cfg.passkey ≠ "" →
      env.fetch s = some r → NorbitsProvider.Response.data r = none →
      NorbitsProvider.search cfg env ((m, s :: rest) :: more) =
        .error .attributeError) := by
  refine ⟨?_, ?_⟩
  · intro cfg env ss hcred hne
    exact NorbitsProvider.search_authException hcred hne
  · intro cfg env m s rest more r hu hp hf hd
    exact NorbitsProvider.search_attributeError hu hp hf hd

/-- C7 witness: both amended behaviours instantiated on the concrete
fixtures (missing passkey, and present credentials with a data-less
response). -/
theorem claim_C7_witness :
    NorbitsProvider.search ⟨"user", "", 1, 0⟩ nbEnv [("Episode", ["q"])] =
      .error .authException ∧
    NorbitsProvider.search nbCfg nbBadEnv [("Episode", ["z"])] =
      .error .attributeError :=
  ⟨claim_C7.1 ⟨"user", "", 1, 0⟩ nbEnv [("Episode", ["q"])] (Or.inr rfl)
     ⟨("Episode", ["q"]), by decide, by decide⟩,
   claim_C7.2 nbCfg nbBadEnv "Episode" "z" [] [] ⟨some 1, some "bad", none⟩
     (by decide) (by decide) rfl rfl⟩

/-- C8: for every provider whose search begins by calling login
(ABNormal, IPTorrents, Ncore), if login returns false then search returns
the empty list, raising no error and issuing no search fetches (the call
count equals login's own count). -/
theorem claim_C8 :
    (∀ cfg session env ss n,
      ABNormalProvider.login cfg session env = (false, n) →
      ABNormalProvider.search cfg session env ss = ([], n)) ∧
    (∀ cfg session env ss n,
      IPTorrentsProvider.login cfg session env = (.ok false, n) →
      IPTorrentsProvider.search cfg session env ss = (.ok [], n)) ∧
    (∀ cfg session env ss n,
      NcoreProvider.login cfg session env = (false, n) →
      NcoreProvider.search cfg session env ss = (.ok [], n)) := by
  refine ⟨?_, ?_, ?_⟩
  · intro cfg session env ss n h
    simp [ABNormalProvider.search, h]
  · intro cfg session env ss n h
    simp [IPTorrentsProvider.search, h]
  · intro cfg session env ss n h
    simp [NcoreProvider.search, h]

/-- C8 witness: the three providers instantiated on transports whose
login fails after one call. -/
theorem claim_C8_witness :
    ABNormalProvider.search abCfg [] abFailEnv [("Episode", ["test"])] =
      ([], 1) ∧
    IPTorrentsProvider.search iptCfg [] iptEnv [("Episode", ["q"])] =
      (.ok [], 1) ∧
    NcoreProvider.search ncCfg [] ncFailEnv [("Episode", ["q"])] =
      (.ok [], 1) :=
  ⟨claim_C8.1 abCfg [] abFailEnv [("Episode", ["test"])] 1 (by decide),
   claim_C8.2.1 iptCfg [] iptEnv [("Episode", ["q"])] 1 (by decide),
   claim_C8.2.2 ncCfg [] ncFailEnv [("Episode", ["q"])] 1 (by decide)⟩

/-- C9: `NorbitsProvider._check_auth_from_data` returns true for every
input, including a `status == 3` response with a message (the
invalid-credentials marker); and a credential failure detected in the
response body never affects the result: the search output is invariant
under arbitrary changes to the `status`/`message` fields of every
response. -/
theorem claim_C9 :
    (∀ p, NorbitsProvider.check_auth_from_data p = true) ∧
    (∀ cfg env1 env2 ss,
      env1.convertSizeNum = env2.convertSizeNum →
      env1.urlencode = env2.urlencode →
      (∀ s, (env1.fetch s).map NorbitsProvider.Response.data =
        (env2.fetch s).map NorbitsProvider.Response.data) →
      NorbitsProvider.search cfg env1 ss = NorbitsProvider.search cfg env2 ss) :=
  ⟨fun _ => rfl,
   fun _cfg _env1 _env2 ss hcs hue hfd =>
     NorbitsProvider.search_congr hcs hue hfd ss⟩

/-- C9 witness: a `status == 3` response passes the check, and a
transport that reports `status == 3` with a message yields exactly the
same records as one that reports `status == 0` with no message. -/
theorem claim_C9_witness :
    NorbitsProvider.check_auth_from_data ⟨some 3, some "Invalid creds", none⟩ =
      true ∧
    NorbitsProvider.search nbCfg nbStatus3Env [("Episode", ["q"])] =
      NorbitsProvider.search nbCfg nbEnv [("Episode", ["q"])] :=
  ⟨claim_C9.1 ⟨some 3, some "Invalid creds", none⟩,
   claim_C9.2 nbCfg nbStatus3Env nbEnv [("Episode", ["q"])] rfl rfl
     (fun _ => rfl)⟩

/-- C10: in ABNormal, IPTorrents and Ncore the emitted size is
`convert_size(...) or -1`, so whenever the size-conversion helper yields a
falsy value (`None` or `0`) the record's size is `-1`; consequently no
record in these providers' output ever carries size `0` — a genuinely
zero-byte size is indistinguishable from an unknown one. -/
theorem claim_C10 :
    (∀ o : Option Int, o = none ∨ o = some 0 → pyOr o (-1) = -1) ∧
    (∀ cfg session env ss it,
      (∀ t, env.convertSize t = none ∨ env.convertSize t = some 0) →
      it ∈ (ABNormalProvider.search cfg session env ss).1 → it.size = -1) ∧
    (∀ cfg session env ss l it,
      (∀ t, env.convertSize t = none ∨ env.convertSize t = some 0) →
      (IPTorrentsProvider.search cfg session env ss).1 = .ok l → it ∈ l →
      it.size = -1) ∧
    (∀ cfg session env ss l it,
      (∀ v, env.convertSizeNum v = none ∨ env.convertSizeNum v = some 0) →
      (NcoreProvider.search cfg session env ss).1 = .ok l → it ∈ l →
      it.size = -1) ∧
    (∀ cfg session env ss it,
      it ∈ (ABNormalProvider.search cfg session env ss).1 → it.size ≠ 0) ∧
    (∀ cfg session env ss l it,
      (IPTorrentsProvider.search cfg session env ss).1 = .ok l → it ∈ l →
      it.size ≠ 0) ∧
    (∀ cfg session env ss l it,
      (NcoreProvider.search cfg session env ss).1 = .ok l → it ∈ l →
      it.size ≠ 0) := by
  refine ⟨?_, ?_, ?_, ?_, ?_, ?_, ?_⟩
  · intro o h
    rcases h with rfl | rfl
    · rfl
    · simp [pyOr]
  · intro cfg session env ss it hfalsy h
    obtain ⟨labels, r, hr⟩ := ABNormalProvider.mem_search h
    rcases (ABNormalProvider.ab_parseRow_inv hr).2.2.2.2 with h1 | ⟨hne, t, ht⟩
    · exact h1
    · rcases hfalsy t with h2 | h2 <;> rw [h2] at ht
      · exact absurd ht (by simp)
      · injection ht with ht
        exact absurd ht.symm hne
  · intro cfg session env ss l it hfalsy hok hit
    obtain ⟨u, r, hr⟩ := IPTorrentsProvider.ipt_mem_search_ok hok hit
    rcases (IPTorrentsProvider.ipt_parseRow_inv hr).2.2.2.2 with h1 | ⟨hne, t, ht⟩
    · exact h1
    · rcases hfalsy t with h2 | h2 <;> rw [h2] at ht
      · exact absurd ht (by simp)
      · injection ht with ht
        exact absurd ht.symm hne
  · intro cfg session env ss l it hfalsy hok hit
    obtain ⟨x, hx⟩ := NcoreProvider.nc_mem_search_ok hok hit
    rcases (NcoreProvider.nc_parseItem_inv hx).2.2.2.2 with h1 | ⟨hne, v, hv⟩
    · exact h1
    · rcases hfalsy v with h2 | h2 <;> rw [h2] at hv
      · exact absurd hv (by simp)
      · injection hv with hv
        exact absurd hv.symm hne
  · intro cfg session env ss it h
    obtain ⟨labels, r, hr⟩ := ABNormalProvider.mem_search h
    rcases (ABNormalProvider.ab_parseRow_inv hr).2.2.2.2 with h1 | ⟨hne, _⟩
    · rw [h1]; decide
    · exact hne
  · intro cfg session env ss l it hok hit
    obtain ⟨u, r, hr⟩ := IPTorrentsProvider.ipt_mem_search_ok hok hit
    rcases (IPTorrentsProvider.ipt_parseRow_inv hr).2.2.2.2 with h1 | ⟨hne, _⟩
    · rw [h1]; decide
    · exact hne
  · intro cfg session env ss l it hok hit
    obtain ⟨x, hx⟩ := NcoreProvider.nc_mem_search_ok hok hit
    rcases (NcoreProvider.nc_parseItem_inv hx).2.2.2.2 with h1 | ⟨hne, _⟩
    · rw [h1]; decide
    · exact hne

/-- C10 witness: with size conversion pinned to the falsy `0`, records
still in the output carry size `-1`; and on the main fixtures no output
record carries size `0`. -/
theorem claim_C10_witness :
    abZeroItemA.size = -1 ∧ iptZeroItem2.size = -1 ∧ ncZeroOut1.size = -1 ∧
    abItemA.size ≠ 0 ∧ iptItem2.size ≠ 0 ∧ ncOut2.size ≠ 0 :=
  ⟨claim_C10.2.1 abCfg [] abZeroEnv [("Episode", ["test"])] abZeroItemA
     (fun _ => Or.inr rfl) (by decide),
   claim_C10.2.2.1 iptCfg iptSession iptZeroEnv [("Episode", ["q"])]
     [iptZeroItem2, iptZeroItem1] iptZeroItem2 (fun _ => Or.inr rfl)
     (by decide) (by decide),
   claim_C10.2.2.2.1 ncCfg [] ncZeroEnv [("Episode", ["q"])]
     [ncZeroOut1, ncZeroOut2] ncZeroOut1 (fun _ => Or.inr rfl)
     (by decide) (by decide),
   claim_C10.2.2.2.2.1 abCfg [] abEnv [("Episode", ["test"])] abItemA
     (by decide),
   claim_C10.2.2.2.2.2.1 iptCfg iptSession iptEnv [("Episode", ["q"])]
     [iptItem2, iptItem1] iptItem2 (by decide) (by decide),
   claim_C10.2.2.2.2.2.2 ncCfg [] ncEnv [("Episode", ["q"])]
     [ncOut1, ncOut2] ncOut2 (by decide) (by decide)⟩

end SickChill
